import Mathlib

/-!
# ello-golang-cache: a shallow embedding of the record cache and its drivers

Sources embedded here:

* `cache/record_cache_item.go`   : `RecordCacheItem`, `IsStale`
* `cache/interface.go`           : `OnDemandFetcher`, `AsyncFetcher`
* `driver/interface.go`          : the storage interface (six operations)
* `driver/memory_cache_driver.go`: `MemoryCache`
* `cache/record_cache.go`        : `RecordCache` and its methods
* `cache/keyless_record_cache.go`: the keyless facade
* `driver/redis_cache_driver.go` : `RedisCache.Delete`

Modelling conventions.

* `time.Time` is an instant on one time line, an integer count of nanoseconds
  since the zero time (January 1, year 1, 00:00:00 UTC). Go stores seconds in
  an `int64`, so additions of a `Duration` to a clock reading never overflow
  and the count is left unbounded. `IsZero` is equality with `0`.
* `time.Duration` is an `int64` count of nanoseconds. Arithmetic on durations
  wraps modulo `2^64`, as in Go.
* `time.Now()` is an effect: every call consumes the next reading of the clock
  carried by the `World`.
* A Go `map` is a reference to a map object. Map objects live in a `Heap`;
  a struct that holds a map holds the address of the object.
* Go's `(V, error)` results are pairs whose second component is `none` for a
  `nil` error. `*new(V)` is `default`.
* The logger has no effect on any state described here and is left out.
-/

namespace ElloCache

/-! ## Time -/

/-- Instants: nanoseconds since the zero time. -/
abbrev Time := Int

/-- Durations: `int64` nanoseconds. -/
abbrev Duration := Int

/-- The smallest `int64`. -/
def minInt64 : Int := -9223372036854775808

/-- The largest `int64`. -/
def maxInt64 : Int := 9223372036854775807

/-- Two's-complement wrap of an integer into the `int64` range. -/
def wrapInt64 (x : Int) : Int := (x + 9223372036854775808) % 18446744073709551616 - 9223372036854775808

/-- A value that an `int64` (hence a `Duration`) can hold. -/
def isInt64 (x : Int) : Prop := minInt64 ≤ x ∧ x ≤ maxInt64

instance (x : Int) : Decidable (isInt64 x) := by
  unfold isInt64; exact inferInstance

/-- Go's `a * b` on `Duration`. -/
def Duration.mul (a b : Duration) : Duration := wrapInt64 (a * b)

/-- Go's `t.Add(d)`. -/
def Time.Add (t : Time) (d : Duration) : Time := t + d

/-- Go's `t.Before(u)`. -/
def Time.Before (t u : Time) : Bool := decide (t < u)

/-- Go's `t.IsZero()`. -/
def Time.IsZero (t : Time) : Bool := decide (t = 0)

/-! ## Go maps and the heap of map objects -/

/-- The contents of a Go map object: finitely many entries, one per key. Keys
are compared by an equality that is reflexive (no NaN keys). -/
abbrev GoMap (K V : Type) := AList (fun _ : K => V)

/-- Go's `len(m)`. -/
def GoMap.len {K V : Type} (m : GoMap K V) : Nat := m.entries.length

/-- The map objects allocated so far: `next` is the first unused address. -/
structure Heap (K V : Type) where
  next : Nat
  obj : Nat → GoMap K V

/-- Go's `make(map[K]V)`: allocates an empty map object and returns its address. -/
def Heap.make {K V : Type} (h : Heap K V) : Nat × Heap K V :=
  (h.next, { next := h.next + 1, obj := fun a => if a = h.next then ∅ else h.obj a })

/-- Replaces the contents of the map object found under address `a`. -/
def Heap.write {K V : Type} (h : Heap K V) (a : Nat) (m : GoMap K V) : Heap K V :=
  { next := h.next, obj := fun b => if b = a then m else h.obj b }

/-! ## The clock, the strategies and the world -/

/-- One invocation of a fetch strategy. -/
inductive FetchCall (K : Type) where
  | byKey (k : K)
  | all
  deriving DecidableEq, Repr

/-- The mutable surroundings of an engine: the state of the storage backend,
the clock (`clock n` is what the `n`-th call of `time.Now()` returns, `ticks`
counts the calls made so far), the strategy invocations made so far (oldest
first) and the number of schedulers created so far by `cron.New()`. -/
structure World (S K : Type) where
  store : S
  clock : Nat → Time
  ticks : Nat
  fetches : List (FetchCall K)
  crons : Nat

/-- Go's `time.Now()`. -/
def World.Now {S K : Type} (w : World S K) : Time × World S K :=
  (w.clock w.ticks, { w with ticks := w.ticks + 1 })

/-- Records an invocation of a fetch strategy. -/
def World.called {S K : Type} (w : World S K) (c : FetchCall K) : World S K :=
  { w with fetches := w.fetches ++ [c] }

/-- Go's `error`: identified by its message. -/
abbrev Error := String

/-- `cache/interface.go`: `OnDemandFetcher[K, V]`. -/
structure OnDemandFetcher (K V : Type) where
  FetchByKey : K → V × Option Error

/-- `cache/interface.go`: `AsyncFetcher[K, V]`. -/
structure AsyncFetcher (K V : Type) where
  FetchAll : GoMap K V × Option Error

/-! ## `cache/record_cache_item.go` -/

/-- `RecordCacheItem[V]`: a value and the time it was captured. -/
structure RecordCacheItem (V : Type) where
  V : V
  T : Time
  deriving DecidableEq, Repr

instance {V : Type} [Inhabited V] : Inhabited (RecordCacheItem V) := ⟨⟨default, 0⟩⟩

/-- `rci.T.Before(time.Now().Add(-1 * ttl))`. -/
def RecordCacheItem.IsStale {V S K : Type} (rci : RecordCacheItem V) (ttl : Duration)
    (w : World S K) : Bool × World S K :=
  let (now, w1) := w.Now
  (Time.Before rci.T (Time.Add now (Duration.mul (-1) ttl)), w1)

/-! ## `driver/interface.go` -/

/-- The storage interface the engine holds (`driver.Cache` in the engine, declared
in `driver/interface.go` as `CacheDriver`), over a backend whose state has type
`S`. The three read operations observe the state; the three write operations
return their success flag and the new state. -/
structure Cache (S K V : Type) where
  Has : S → K → Bool
  Get : S → K → V × Bool
  All : S → GoMap K V
  Set : S → K → V → Bool × S
  Delete : S → K → Bool × S
  Clear : S → Bool × S

/-! ## `driver/memory_cache_driver.go` -/

/-- `MemoryCache[K, V]`: a struct whose only field `c` is a map, that is the
address of a map object. The field refers to an allocated object, as after
`NewMemoryCache` or a struct literal that supplies a map; the nil map of the
zero-value struct is outside the model. -/
structure MemoryCache where
  c : Nat
  deriving DecidableEq, Repr

/-- `NewMemoryCache`. -/
def NewMemoryCache {K V : Type} (h : Heap K V) : MemoryCache × Heap K V :=
  let (a, h1) := h.make
  ({ c := a }, h1)

/-- `Has`: `_, ok := m.c[key]; return ok`. -/
def MemoryCache.Has {K V : Type} [DecidableEq K] (m : MemoryCache) (h : Heap K V) (key : K) : Bool :=
  ((h.obj m.c).lookup key).isSome

/-- `Get`: `v, ok := m.c[key]; return v, ok`. -/
def MemoryCache.Get {K V : Type} [DecidableEq K] [Inhabited V] (m : MemoryCache) (h : Heap K V)
    (key : K) : V × Bool :=
  match (h.obj m.c).lookup key with
  | some v => (v, true)
  | none => (default, false)

/-- `All`: `return m.c`. -/
def MemoryCache.All {K V : Type} (m : MemoryCache) (h : Heap K V) : GoMap K V :=
  h.obj m.c

/-- `Set`: `m.c[key] = value; return m.Has(ctx, key)`. The assignment goes
through the reference and changes the map object itself. -/
def MemoryCache.Set {K V : Type} [DecidableEq K] (m : MemoryCache) (h : Heap K V) (key : K)
    (value : V) : Bool × Heap K V :=
  let h1 := h.write m.c ((h.obj m.c).insert key value)
  (m.Has h1 key, h1)

/-- `Delete`: `delete(m.c, key); return !m.Has(ctx, key)`. -/
def MemoryCache.Delete {K V : Type} [DecidableEq K] (m : MemoryCache) (h : Heap K V) (key : K) :
    Bool × Heap K V :=
  let h1 := h.write m.c ((h.obj m.c).erase key)
  (!m.Has h1 key, h1)

/-- `Clear`: `m.c = make(map[K]V); return len(m.c) == 0`. The receiver `m` is a
value receiver, so `m` is the callee's own copy of the struct: the assignment
binds the field of that copy (`m1` below) to the new object. The struct held by
the caller still holds the old address, and the old object is not touched. -/
def MemoryCache.Clear {K V : Type} (m : MemoryCache) (h : Heap K V) : Bool × Heap K V :=
  let (a, h1) := h.make
  let m1 : MemoryCache := { m with c := a }
  (decide (GoMap.len (h1.obj m1.c) = 0), h1)

/-- A `MemoryCache` value seen through the storage interface. -/
def MemoryCache.toCache {K V : Type} [DecidableEq K] [Inhabited V] (m : MemoryCache) :
    Cache (Heap K V) K V where
  Has := m.Has
  Get := m.Get
  All := m.All
  Set := m.Set
  Delete := m.Delete
  Clear := m.Clear

/-! ## `cache/record_cache.go` -/

/-- `RecordCache[K, V]` without its logger. `cron` is `none` for a nil pointer
and `some n` for the `n`-th scheduler created. -/
structure RecordCache (S K V : Type) where
  onDemandFetcher : Option (OnDemandFetcher K V)
  asyncFetcher : Option (AsyncFetcher K V)
  cache : Cache S K (RecordCacheItem V)
  recordTtl : Duration
  allTtl : Duration
  lastUpdated : Time
  cron : Option Nat

/-- `NewRecordCache`. -/
def NewRecordCache {S K V : Type} (cache : Cache S K (RecordCacheItem V)) : RecordCache S K V :=
  { onDemandFetcher := none, asyncFetcher := none, cache := cache,
    recordTtl := 0, allTtl := 0, lastUpdated := 0, cron := none }

/-- `needRefreshing`. `||` does not evaluate `v.IsStale` when `!ok` holds. -/
def RecordCache.needRefreshing {S K V : Type} (r : RecordCache S K V) (k : K) (w : World S K) :
    Bool × World S K :=
  let (v, ok) := r.cache.Get w.store k
  match r.onDemandFetcher with
  | none => if !ok then (true, w) else v.IsStale r.allTtl w
  | some _ => if !ok then (true, w) else v.IsStale r.recordTtl w

/-- `refreshItem`: returns the error (`none` for `nil`). -/
def RecordCache.refreshItem {S K V : Type} (r : RecordCache S K V) (k : K) (w : World S K) :
    Option Error × World S K :=
  match r.onDemandFetcher with
  | none => (some "value not in cache and on demand fetcher is not initalised", w)
  | some f =>
    let (v, err) := f.FetchByKey k
    let w1 := w.called (FetchCall.byKey k)
    match err with
    | some e => (some e, w1)
    | none =>
      let (now, w2) := w1.Now
      let (_, s) := r.cache.Set w2.store k { V := v, T := now }
      (none, { w2 with store := s })

/-- `Get`. -/
def RecordCache.Get {S K V : Type} [Inhabited V] (r : RecordCache S K V) (k : K) (w : World S K) :
    (V × Option Error) × World S K :=
  let (need, w1) := r.needRefreshing k w
  let (err, w2) := if need then r.refreshItem k w1 else (none, w1)
  match err with
  | some e => ((default, some e), w2)
  | none =>
    let (record, ok) := r.cache.Get w2.store k
    if !ok then ((default, some "record not in cache"), w2)
    else ((record.V, none), w2)

/-- `refreshAllRecords`. The result of `Clear` is only logged. The entries of
`latest` are written in the order in which the map is ranged over. -/
def RecordCache.refreshAllRecords {S K V : Type} (r : RecordCache S K V) (w : World S K) :
    World S K :=
  match r.asyncFetcher with
  | none => w
  | some f =>
    let (latest, err) := f.FetchAll
    let w1 := w.called FetchCall.all
    match err with
    | some _ => w1
    | none =>
      let (_, s1) := r.cache.Clear w1.store
      let (now, w2) := ({ w1 with store := s1 } : World S K).Now
      let s2 := latest.entries.foldl
        (fun s kv => (r.cache.Set s kv.1 { V := kv.2, T := now }).2) w2.store
      { w2 with store := s2 }

/-- `removeStale`: ranges over `All` and deletes every entry found stale. -/
def RecordCache.removeStale {S K V : Type} (r : RecordCache S K V) (w : World S K) : World S K :=
  (r.cache.All w.store).entries.foldl
    (fun w0 kv =>
      let (stale, w1) := kv.2.IsStale r.recordTtl w0
      if stale then { w1 with store := (r.cache.Delete w1.store kv.1).2 } else w1) w

/-- The second condition of `refreshCache`:
`r.asyncFetcher != nil && (r.lastUpdated.IsZero() || r.lastUpdated.Before(time.Now().Add(-1*r.allTtl)))`.
`&&` and `||` read the clock only when the earlier operands do not decide. -/
def RecordCache.refreshDue {S K V : Type} (r : RecordCache S K V) (w : World S K) :
    Bool × World S K :=
  match r.asyncFetcher with
  | none => (false, w)
  | some _ =>
    if Time.IsZero r.lastUpdated then (true, w)
    else
      let (now, w1) := w.Now
      (Time.Before r.lastUpdated (Time.Add now (Duration.mul (-1) r.allTtl)), w1)

/-- `refreshCache`: one sweep. -/
def RecordCache.refreshCache {S K V : Type} (r : RecordCache S K V) (w : World S K) :
    RecordCache S K V × World S K :=
  let w1 := if r.onDemandFetcher.isSome then r.removeStale w else w
  let (due, w2) := r.refreshDue w1
  if due then
    let w3 := r.refreshAllRecords w2
    let (now, w4) := w3.Now
    ({ r with lastUpdated := now }, w4)
  else (r, w2)

/-- `setSchedule`: returns the error (always nil here), the engine and the world.
`cron.New()` yields a new scheduler, numbered by the count of schedulers
created before it; `AddFunc` accepts the fixed spec `* * * * *`; `Start`
launches the scheduler, whose later ticks are further calls of `refreshCache`
and are not part of this call. -/
def RecordCache.setSchedule {S K V : Type} (r : RecordCache S K V) (w : World S K) :
    Option Error × RecordCache S K V × World S K :=
  match r.cron with
  | some _ => (none, r, w)
  | none =>
    let (r1, w1) := r.refreshCache w
    (none, { r1 with cron := some w1.crons }, { w1 with crons := w1.crons + 1 })

/-- `refreshStaleRecordsEvery`: the error of `setSchedule` is only logged. -/
def RecordCache.refreshStaleRecordsEvery {S K V : Type} (r : RecordCache S K V) (ttl : Duration)
    (w : World S K) : RecordCache S K V × World S K :=
  let (_, r1, w1) := ({ r with recordTtl := ttl } : RecordCache S K V).setSchedule w
  (r1, w1)

/-- `refreshAllRecordsEvery`: the error of `setSchedule` is only logged. -/
def RecordCache.refreshAllRecordsEvery {S K V : Type} (r : RecordCache S K V) (ttl : Duration)
    (w : World S K) : RecordCache S K V × World S K :=
  let (_, r1, w1) := ({ r with allTtl := ttl } : RecordCache S K V).setSchedule w
  (r1, w1)

/-- `SetOnDemandFetcher`: `f` is an interface value, `none` when nil. -/
def RecordCache.SetOnDemandFetcher {S K V : Type} (r : RecordCache S K V)
    (f : Option (OnDemandFetcher K V)) (ttl : Duration) (w : World S K) :
    RecordCache S K V × World S K :=
  ({ r with onDemandFetcher := f } : RecordCache S K V).refreshStaleRecordsEvery ttl w

/-- `SetAsyncFetcher`: `f` is an interface value, `none` when nil. -/
def RecordCache.SetAsyncFetcher {S K V : Type} (r : RecordCache S K V)
    (f : Option (AsyncFetcher K V)) (ttl : Duration) (w : World S K) :
    RecordCache S K V × World S K :=
  ({ r with asyncFetcher := f } : RecordCache S K V).refreshAllRecordsEvery ttl w

/-! ## Fixtures of the test suites

`newCacheStub` of `cache/record_cache_test.go`, the mock strategies next to it
and the engines the table tests build from them. -/

/-- One second, in nanoseconds. -/
def second : Duration := 1000000000

/-- One hour, in nanoseconds. -/
def hour : Duration := 3600 * second

/-- The clock reading under which the fixtures are built. -/
def stubNow : Time := 63000000000 * second

/-- The map object of `newCacheStub`: two entries captured an hour after
`stubNow`, two captured an hour before it. -/
def stubMap : GoMap String (RecordCacheItem Int) :=
  ((((∅ : GoMap String (RecordCacheItem Int)).insert "active1" ⟨1, stubNow + hour⟩).insert
    "active2" ⟨2, stubNow + hour⟩).insert "stale1" ⟨1, stubNow - hour⟩).insert
    "stale2" ⟨2, stubNow - hour⟩

/-- The heap after `newCacheStub`: one map object, under address `0`. -/
def stubHeap : Heap String (RecordCacheItem Int) :=
  { next := 1, obj := fun a => if a = 0 then stubMap else ∅ }

/-- The `MemoryCache` value returned by `newCacheStub`. -/
def stubCache : MemoryCache := { c := 0 }

/-- A world over `stubHeap` whose clock stands still on `stubNow`. -/
def stubWorld : World (Heap String (RecordCacheItem Int)) String :=
  { store := stubHeap, clock := fun _ => stubNow, ticks := 0, fetches := [], crons := 0 }

/-- `onDemandFetcherMock`: `return 10, nil`. -/
def onDemandFetcherMock : OnDemandFetcher String Int := { FetchByKey := fun _ => (10, none) }

/-- `FetcherError`: `return 1000, fmt.Errorf("error")`. -/
def FetcherError : OnDemandFetcher String Int := { FetchByKey := fun _ => (1000, some "error") }

/-- `asyncFetcherMock`: the four keys of the stub with their values. -/
def asyncFetcherMock : AsyncFetcher String Int :=
  { FetchAll := (((((∅ : GoMap String Int).insert "active1" 1).insert "active2" 2).insert
      "stale1" 1).insert "stale2" 2, none) }

/-- A bulk strategy that fails. -/
def asyncFetcherError : AsyncFetcher String Int := { FetchAll := (∅, some "error") }

/-- The engine of the table tests of `TestRecordCache_Get`: both TTLs are 100
seconds, no scheduler, `lastUpdated` zero. -/
def stubEngine (od : Option (OnDemandFetcher String Int)) (af : Option (AsyncFetcher String Int)) :
    RecordCache (Heap String (RecordCacheItem Int)) String Int :=
  { onDemandFetcher := od, asyncFetcher := af, cache := stubCache.toCache,
    recordTtl := 100 * second, allTtl := 100 * second, lastUpdated := 0, cron := none }

/-- A store seeded with `"stale_key"`, captured long before `stubNow`. -/
def seededHeap : Heap String (RecordCacheItem Int) :=
  { next := 1,
    obj := fun a => if a = 0 then (∅ : GoMap String (RecordCacheItem Int)).insert "stale_key" ⟨7, 5⟩
                    else ∅ }

/-- A world over `seededHeap` whose clock stands still on `stubNow`. -/
def seededWorld : World (Heap String (RecordCacheItem Int)) String :=
  { store := seededHeap, clock := fun _ => stubNow, ticks := 0, fetches := [], crons := 0 }

/-- A bulk strategy that returns `a -> 1, b -> 2`. -/
def asyncFetcherAB : AsyncFetcher String Int :=
  { FetchAll := (((∅ : GoMap String Int).insert "a" 1).insert "b" 2, none) }

/-- The store of `TestMemoryCache_Clear`, `cache full returns true`. -/
def fullHeap : Heap Int String :=
  { next := 1,
    obj := fun a => if a = 0 then ((∅ : GoMap Int String).insert 1 "one").insert 2 "two" else ∅ }

/-- A world with no storage, for statements about the clock alone. -/
def clockWorld (now : Time) : World Unit Unit :=
  { store := (), clock := fun _ => now, ticks := 0, fetches := [], crons := 0 }

/-- The heap of `fullHeap` is reached through this `MemoryCache` value. -/
def fullCache : MemoryCache := { c := 0 }

/-- A bulk-only engine over the stub whose strategy fails and whose last bulk
refresh is an hour old. -/
def failingBulkEngine : RecordCache (Heap String (RecordCacheItem Int)) String Int :=
  { stubEngine none (some asyncFetcherError) with lastUpdated := stubNow - hour }

/-- A bulk-only engine over a `MemoryCache` whose strategy returns `a -> 1, b -> 2`. -/
def bulkEngineAB : RecordCache (Heap String (RecordCacheItem Int)) String Int :=
  stubEngine none (some asyncFetcherAB)

/-! ## Callers -/

/-- One call of a strategy setter, with its arguments. -/
inductive SetCall (K V : Type) where
  | onDemand (f : Option (OnDemandFetcher K V)) (ttl : Duration)
  | async (f : Option (AsyncFetcher K V)) (ttl : Duration)

/-- The effect of one setter call on an engine and its world. -/
def SetCall.apply {S K V : Type} (c : SetCall K V) (rw : RecordCache S K V × World S K) :
    RecordCache S K V × World S K :=
  match c with
  | SetCall.onDemand f ttl => rw.1.SetOnDemandFetcher f ttl rw.2
  | SetCall.async f ttl => rw.1.SetAsyncFetcher f ttl rw.2

/-- A caller that issues the setter calls of `calls` in order. -/
def applyCalls {S K V : Type} (calls : List (SetCall K V))
    (rw : RecordCache S K V × World S K) : RecordCache S K V × World S K :=
  calls.foldl (fun acc c => c.apply acc) rw

/-! ## Further fixtures -/

/-- A bulk-only engine over the stub whose last bulk refresh is exactly `allTtl`
(100 seconds) old under `stubNow`. -/
def boundaryBulkEngine : RecordCache (Heap String (RecordCacheItem Int)) String Int :=
  { stubEngine none (some asyncFetcherMock) with lastUpdated := stubNow - 100 * second }

/-- The stub engine with an on-demand strategy and a scheduler already running. -/
def scheduledEngine : RecordCache (Heap String (RecordCacheItem Int)) String Int :=
  { stubEngine (some onDemandFetcherMock) none with cron := some 0 }

/-- A heap that holds one empty map object: the state after `NewMemoryCache`. -/
def emptyHeap : Heap String (RecordCacheItem Int) :=
  (NewMemoryCache { next := 0, obj := fun _ => ∅ }).2

/-- A world over `emptyHeap` whose clock advances by one nanosecond per reading. -/
def runningWorld : World (Heap String (RecordCacheItem Int)) String :=
  { store := emptyHeap, clock := fun n => stubNow + n, ticks := 0, fetches := [], crons := 0 }

/-! ## `cache/keyless_record_cache.go` -/

/-- `cache/interface.go`: `KeylessFetcher[V]`. -/
structure KeylessFetcher (V : Type) where
  Fetch : V × Option Error

/-- `newOnDemandFetcher(f)`, seen through `OnDemandFetcher[int, V]`: its
`FetchByKey` ignores the key and returns `o.f.Fetch(ctx)`. -/
def newOnDemandFetcher {V : Type} (f : KeylessFetcher V) : OnDemandFetcher Int V :=
  { FetchByKey := fun _ => f.Fetch }

/-- `newAsyncFetcher(f)`, seen through `AsyncFetcher[int, V]`: its `FetchAll` is
`v, err := a.f.Fetch(ctx); return map[int]V{0: v}, err`. -/
def newAsyncFetcher {V : Type} (f : KeylessFetcher V) : AsyncFetcher Int V :=
  { FetchAll := ((∅ : GoMap Int V).insert 0 f.Fetch.1, f.Fetch.2) }

/-- `KeylessRecordCache[V]`: embeds a `*RecordCache[int, V]`. -/
structure KeylessRecordCache (S V : Type) where
  RecordCache : ElloCache.RecordCache S Int V

/-- `NewKeylessRecordCacheOnDemand`. -/
def NewKeylessRecordCacheOnDemand {S V : Type} (driver : Cache S Int (RecordCacheItem V))
    (f : KeylessFetcher V) (ttl : Duration) (w : World S Int) :
    KeylessRecordCache S V × World S Int :=
  let (r, w1) := (NewRecordCache driver).SetOnDemandFetcher (some (newOnDemandFetcher f)) ttl w
  ({ RecordCache := r }, w1)

/-- `NewKeylessRecordCacheAsync`. -/
def NewKeylessRecordCacheAsync {S V : Type} (driver : Cache S Int (RecordCacheItem V))
    (f : KeylessFetcher V) (ttl : Duration) (w : World S Int) :
    KeylessRecordCache S V × World S Int :=
  let (r, w1) := (NewRecordCache driver).SetAsyncFetcher (some (newAsyncFetcher f)) ttl w
  ({ RecordCache := r }, w1)

/-- `KeylessRecordCache.Get`: `return k.RecordCache.Get(ctx, 0)`. -/
def KeylessRecordCache.Get {S V : Type} [Inhabited V] (k : KeylessRecordCache S V)
    (w : World S Int) : (V × Option Error) × World S Int :=
  k.RecordCache.Get 0 w

/-! ## `driver/redis_cache_driver.go` -/

/-- The command of the redis client that `Delete` issues, over a server whose
state has type `R`: `HDel(ctx, key, field)` answers with the number of fields
removed and an error, and may change the server. -/
structure RedisClient (R : Type) where
  HDel : R → String → String → (Int × Option Error) × R

/-- `RedisCache[K, V]`: the client and the name of the hash. -/
structure RedisCache (R : Type) where
  c : RedisClient R
  key : String

/-- `RedisCache.Delete`. `gobEncode key` stands for
`gob.NewEncoder(&k).Encode(key)`: the bytes left in the buffer `k` and the
error. `HDel` is issued whatever the encoder returned and its answer is
dropped; the result is `err == nil` for the encoder's error. -/
def RedisCache.Delete {R K : Type} (gobEncode : K → String × Option Error) (r : RedisCache R)
    (s : R) (key : K) : Bool × R :=
  let (k, err) := gobEncode key
  let (_, s1) := r.c.HDel s r.key k
  (err.isNone, s1)

/-! ## Fixtures of the keyless and redis tests -/

/-- `mockFetcher`: `return "hello", nil`. -/
def mockFetcher : KeylessFetcher String := { Fetch := ("hello", none) }

/-- `mockFetcherError`: `return "", fmt.Errorf("error")`. -/
def mockFetcherError : KeylessFetcher String := { Fetch := ("", some "error") }

/-- The heap after `driver.NewMemoryCache[int, RecordCacheItem[string]]()`. -/
def keylessHeap : Heap Int (RecordCacheItem String) :=
  (NewMemoryCache { next := 0, obj := fun _ => ∅ }).2

/-- The `MemoryCache` value returned by that call. -/
def keylessCache : MemoryCache := { c := 0 }

/-- A world over `keylessHeap` whose clock stands still on `stubNow`. -/
def keylessWorld : World (Heap Int (RecordCacheItem String)) Int :=
  { store := keylessHeap, clock := fun _ => stubNow, ticks := 0, fetches := [], crons := 0 }

/-- A world over `keylessHeap` whose clock advances by one nanosecond per reading. -/
def tickingWorld : World (Heap Int (RecordCacheItem String)) Int :=
  { store := keylessHeap, clock := fun n => stubNow + n, ticks := 0, fetches := [], crons := 0 }

/-- A storage backend that is out of reach: nothing is found and no write
succeeds. -/
def unreachableCache : Cache Unit String (RecordCacheItem Int) :=
  { Has := fun _ _ => false, Get := fun _ _ => (default, false), All := fun _ => ∅,
    Set := fun s _ _ => (false, s), Delete := fun s _ => (false, s), Clear := fun s => (false, s) }

/-- An engine over `unreachableCache` with the on-demand mock. -/
def unreachableEngine : RecordCache Unit String Int :=
  { onDemandFetcher := some onDemandFetcherMock, asyncFetcher := none, cache := unreachableCache,
    recordTtl := 100 * second, allTtl := 100 * second, lastUpdated := 0, cron := none }

/-- A world over the unreachable backend. -/
def unreachableWorld : World Unit String :=
  { store := (), clock := fun _ => stubNow, ticks := 0, fetches := [], crons := 0 }

/-- A redis client whose `HDel` fails, as `getRedisMockDeleteError`. -/
def redisDeleteError : RedisCache Unit :=
  { c := { HDel := fun s _ _ => ((0, some "error"), s) }, key := "test" }

/-- A redis client whose `HDel` removes nothing, as for a key that is not in the hash. -/
def redisDeleteMiss : RedisCache Unit :=
  { c := { HDel := fun s _ _ => ((0, none), s) }, key := "test" }

/-- An encoder that succeeds on every key. -/
def gobEncodeNat (k : Nat) : String × Option Error := (toString k, none)

/-! ## Lemmas on durations, the heap and the world -/

theorem wrapInt64_neg (x : Int) (hlo : -9223372036854775808 ≤ x) (hhi : x ≤ 9223372036854775807)
    (hne : x ≠ -9223372036854775808) :
    (-1 * x + 9223372036854775808) % 18446744073709551616 - 9223372036854775808 = -x := by
  omega

theorem Duration.mul_neg_one (ttl : Duration) (hr : isInt64 ttl) (hmin : ttl ≠ minInt64) :
    Duration.mul (-1) ttl = -ttl :=
  wrapInt64_neg ttl hr.1 hr.2 hmin

theorem lt_add_neg_iff_lt_sub (a b c : Int) : a < b + -c ↔ a < b - c := by
  omega

theorem lt_add_neg_iff_age_gt (a b c : Int) : a < b + -c ↔ b - a > c := by
  omega

theorem not_lt_add_neg_of_age_eq (a b c : Int) (h : b - a = c) : ¬ a < b + -c := by
  omega

theorem Duration.mul_neg_one_min : Duration.mul (-1) minInt64 = minInt64 := by
  decide

theorem IsStale_fst {V S K : Type} (rci : RecordCacheItem V) (ttl : Duration) (w : World S K) :
    (rci.IsStale ttl w).1 = decide (rci.T < w.clock w.ticks + Duration.mul (-1) ttl) := rfl

theorem IsStale_snd {V S K : Type} (rci : RecordCacheItem V) (ttl : Duration) (w : World S K) :
    (rci.IsStale ttl w).2 = { w with ticks := w.ticks + 1 } := rfl

theorem needRefreshing_fst {S K V : Type} (r : RecordCache S K V) (k : K) (w : World S K) :
    (r.needRefreshing k w).1 =
      (!(r.cache.Get w.store k).2 ||
        ((r.cache.Get w.store k).1.IsStale
          (if r.onDemandFetcher.isSome then r.recordTtl else r.allTtl) w).1) := by
  unfold RecordCache.needRefreshing
  rcases r.cache.Get w.store k with ⟨v, ok⟩
  cases r.onDemandFetcher <;> cases ok <;> simp

theorem needRefreshing_snd {S K V : Type} (r : RecordCache S K V) (k : K) (w : World S K) :
    (r.needRefreshing k w).2 =
      { w with ticks := if (r.cache.Get w.store k).2 then w.ticks + 1 else w.ticks } := by
  unfold RecordCache.needRefreshing
  rcases r.cache.Get w.store k with ⟨v, ok⟩
  cases r.onDemandFetcher <;> cases ok <;> simp [IsStale_snd]

theorem Get_unfold {S K V : Type} [Inhabited V] (r : RecordCache S K V) (k : K) (w : World S K) :
    r.Get k w =
      (if (r.needRefreshing k w).1 then
        (match r.refreshItem k (r.needRefreshing k w).2 with
          | (some e, w2) => ((default, some e), w2)
          | (none, w2) =>
            if (r.cache.Get w2.store k).2 then (((r.cache.Get w2.store k).1.V, none), w2)
            else ((default, some "record not in cache"), w2))
      else
        if (r.cache.Get w.store k).2 then
          (((r.cache.Get w.store k).1.V, none), (r.needRefreshing k w).2)
        else ((default, some "record not in cache"), (r.needRefreshing k w).2)) := by
  have hs : (r.needRefreshing k w).2.store = w.store := by rw [needRefreshing_snd]
  unfold RecordCache.Get
  rcases hn : r.needRefreshing k w with ⟨need, w1⟩
  rw [hn] at hs
  simp only at hs
  cases need
  · simp only [Bool.false_eq_true, if_false, hs]
    rcases hg : r.cache.Get w.store k with ⟨rec, ok⟩
    cases ok <;> simp [hg]
  · simp only [if_true]
    rcases r.refreshItem k w1 with ⟨err, w2⟩
    cases err
    · simp only
      rcases hg : r.cache.Get w2.store k with ⟨rec, ok⟩
      cases ok <;> simp [hg]
    · simp only

theorem refreshItem_none {S K V : Type} (r : RecordCache S K V) (k : K) (w : World S K)
    (hod : r.onDemandFetcher = none) :
    r.refreshItem k w =
      (some "value not in cache and on demand fetcher is not initalised", w) := by
  unfold RecordCache.refreshItem
  rw [hod]

theorem refreshItem_error {S K V : Type} (r : RecordCache S K V) (f : OnDemandFetcher K V) (k : K)
    (v : V) (e : Error) (w : World S K) (hod : r.onDemandFetcher = some f)
    (hf : f.FetchByKey k = (v, some e)) :
    r.refreshItem k w = (some e, w.called (FetchCall.byKey k)) := by
  unfold RecordCache.refreshItem
  rw [hod]
  simp only [hf]

theorem refreshItem_ok {S K V : Type} (r : RecordCache S K V) (f : OnDemandFetcher K V) (k : K)
    (v : V) (w : World S K) (hod : r.onDemandFetcher = some f)
    (hf : f.FetchByKey k = (v, none)) :
    r.refreshItem k w =
      (none, { store := (r.cache.Set w.store k { V := v, T := w.clock w.ticks }).2,
               clock := w.clock, ticks := w.ticks + 1,
               fetches := w.fetches ++ [FetchCall.byKey k], crons := w.crons }) := by
  unfold RecordCache.refreshItem
  rw [hod]
  simp only [hf, World.Now, World.called]

theorem removeStale_step_frame {S K V : Type} (r : RecordCache S K V) (w0 : World S K)
    (kv : Sigma (fun _ : K => RecordCacheItem V)) :
    ((let (stale, w1) := kv.2.IsStale r.recordTtl w0
      if stale then { w1 with store := (r.cache.Delete w1.store kv.1).2 } else w1).fetches =
        w0.fetches) ∧
    ((let (stale, w1) := kv.2.IsStale r.recordTtl w0
      if stale then { w1 with store := (r.cache.Delete w1.store kv.1).2 } else w1).clock =
        w0.clock) ∧
    ((let (stale, w1) := kv.2.IsStale r.recordTtl w0
      if stale then { w1 with store := (r.cache.Delete w1.store kv.1).2 } else w1).crons =
        w0.crons) := by
  simp only [RecordCacheItem.IsStale, World.Now]
  split <;> simp

theorem removeStale_frame {S K V : Type} (r : RecordCache S K V) (w : World S K) :
    (r.removeStale w).fetches = w.fetches ∧ (r.removeStale w).clock = w.clock ∧
    (r.removeStale w).crons = w.crons := by
  unfold RecordCache.removeStale
  generalize (r.cache.All w.store).entries = l
  induction l generalizing w with
  | nil => exact ⟨rfl, rfl, rfl⟩
  | cons kv l ih =>
    rw [List.foldl_cons]
    have hstep := removeStale_step_frame r w kv
    have hrest := ih (let (stale, w1) := kv.2.IsStale r.recordTtl w
      if stale then { w1 with store := (r.cache.Delete w1.store kv.1).2 } else w1)
    exact ⟨hrest.1.trans hstep.1, hrest.2.1.trans hstep.2.1, hrest.2.2.trans hstep.2.2⟩

theorem refreshDue_frame {S K V : Type} (r : RecordCache S K V) (w : World S K) :
    (r.refreshDue w).2.store = w.store ∧ (r.refreshDue w).2.fetches = w.fetches ∧
    (r.refreshDue w).2.clock = w.clock ∧ (r.refreshDue w).2.crons = w.crons := by
  unfold RecordCache.refreshDue
  cases r.asyncFetcher with
  | none => exact ⟨rfl, rfl, rfl, rfl⟩
  | some f =>
    simp only
    split <;> exact ⟨rfl, rfl, rfl, rfl⟩

theorem refreshDue_isSome {S K V : Type} (r : RecordCache S K V) (w : World S K)
    (hdue : (r.refreshDue w).1 = true) : r.asyncFetcher.isSome = true := by
  unfold RecordCache.refreshDue at hdue
  cases haf : r.asyncFetcher with
  | none => rw [haf] at hdue; simp at hdue
  | some f => rfl

theorem refreshAllRecords_error {S K V : Type} (r : RecordCache S K V) (f : AsyncFetcher K V)
    (latest : GoMap K V) (e : Error) (w : World S K) (haf : r.asyncFetcher = some f)
    (hf : f.FetchAll = (latest, some e)) :
    r.refreshAllRecords w = w.called FetchCall.all := by
  unfold RecordCache.refreshAllRecords
  rw [haf]
  simp only [hf]

theorem refreshAllRecords_frame {S K V : Type} (r : RecordCache S K V) (w : World S K)
    (haf : r.asyncFetcher.isSome = true) :
    (r.refreshAllRecords w).fetches = w.fetches ++ [FetchCall.all] ∧
    (r.refreshAllRecords w).clock = w.clock ∧ (r.refreshAllRecords w).crons = w.crons := by
  cases hf : r.asyncFetcher with
  | none => rw [hf] at haf; simp at haf
  | some f =>
    rcases hfa : f.FetchAll with ⟨latest, err⟩
    unfold RecordCache.refreshAllRecords
    rw [hf]
    cases err <;> simp [hfa, World.Now, World.called]

theorem refreshCache_unfold {S K V : Type} (r : RecordCache S K V) (w : World S K) :
    r.refreshCache w =
      (if (r.refreshDue (if r.onDemandFetcher.isSome then r.removeStale w else w)).1 then
        ({ r with lastUpdated :=
            (r.refreshAllRecords
              (r.refreshDue (if r.onDemandFetcher.isSome then r.removeStale w else w)).2).Now.1 },
          (r.refreshAllRecords
            (r.refreshDue (if r.onDemandFetcher.isSome then r.removeStale w else w)).2).Now.2)
      else (r, (r.refreshDue (if r.onDemandFetcher.isSome then r.removeStale w else w)).2)) := by
  rcases hd : r.refreshDue (if r.onDemandFetcher.isSome then r.removeStale w else w) with ⟨due, w2⟩
  unfold RecordCache.refreshCache
  simp only [hd]

theorem Clear_returns_true {K V : Type} (m : MemoryCache) (h : Heap K V) :
    (m.Clear h).1 = true := by
  simp [MemoryCache.Clear, Heap.make, GoMap.len]

theorem Clear_All {K V : Type} (m : MemoryCache) (h : Heap K V) (hm : m.c < h.next) :
    m.All (m.Clear h).2 = m.All h := by
  have hne : m.c ≠ h.next := Nat.ne_of_lt hm
  simp [MemoryCache.Clear, MemoryCache.All, Heap.make, hne]

/-! ## C1, C2: staleness -/

/-- C1, as stated, fails for the minimum duration: `-1 * ttl` wraps back to
`ttl`, so an entry captured exactly now is not stale although its capture time
is strictly before `now - ttl`. -/
theorem C1_counterexample :
    isInt64 minInt64 ∧
    ((⟨(), 0⟩ : RecordCacheItem Unit).IsStale minInt64 (clockWorld 0)).1 = false ∧
    (⟨(), 0⟩ : RecordCacheItem Unit).T < (clockWorld 0).Now.1 - minInt64 := by
  decide

/-- C1 (amended): for every entry, every ttl other than the minimum duration
and every clock reading, `IsStale(ttl)` is true exactly when the capture time
is strictly before `now - ttl`, where `now` is the clock reading taken by the
call. -/
theorem C1_IsStale_iff_before {V S K : Type} (rci : RecordCacheItem V) (ttl : Duration)
    (w : World S K) (hr : isInt64 ttl) (hmin : ttl ≠ minInt64) :
    (rci.IsStale ttl w).1 = true ↔ rci.T < w.Now.1 - ttl := by
  rw [IsStale_fst, Duration.mul_neg_one ttl hr hmin, decide_eq_true_eq]
  exact lt_add_neg_iff_lt_sub rci.T (w.clock w.ticks) ttl

/-- C1 (amended) at the stale fixture entry: captured an hour ago, ttl 100 s. -/
theorem C1_IsStale_iff_before_witness :
    isInt64 (100 * second) ∧ 100 * second ≠ minInt64 ∧
    (((⟨1, stubNow - hour⟩ : RecordCacheItem Int).IsStale (100 * second) stubWorld).1 = true ↔
      (⟨1, stubNow - hour⟩ : RecordCacheItem Int).T < stubWorld.Now.1 - 100 * second) :=
  ⟨by decide, by decide,
    C1_IsStale_iff_before ⟨1, stubNow - hour⟩ (100 * second) stubWorld (by decide) (by decide)⟩

/-- C2, as stated, fails on the boundary: an entry whose age equals the ttl
exactly (captured at 100, read at 110, ttl 10) is not stale. -/
theorem C2_counterexample :
    (clockWorld 110).Now.1 - (⟨(), 100⟩ : RecordCacheItem Unit).T ≥ 10 ∧
    ((⟨(), 100⟩ : RecordCacheItem Unit).IsStale 10 (clockWorld 110)).1 = false := by
  decide

/-- C2 (amended): for every entry, every ttl other than the minimum duration
and every clock reading `now`, `IsStale(ttl)` is true if and only if
`now - capturedAt > ttl`; an entry whose age equals ttl exactly is not stale. -/
theorem C2_IsStale_iff_age_gt {V S K : Type} (rci : RecordCacheItem V) (ttl : Duration)
    (w : World S K) (hr : isInt64 ttl) (hmin : ttl ≠ minInt64) :
    ((rci.IsStale ttl w).1 = true ↔ w.Now.1 - rci.T > ttl) ∧
    (w.Now.1 - rci.T = ttl → (rci.IsStale ttl w).1 = false) := by
  rw [IsStale_fst, Duration.mul_neg_one ttl hr hmin, decide_eq_true_eq, decide_eq_false_iff_not]
  exact ⟨lt_add_neg_iff_age_gt rci.T (w.clock w.ticks) ttl,
    not_lt_add_neg_of_age_eq rci.T (w.clock w.ticks) ttl⟩

/-- C2 (amended) at the boundary: captured at 100, read at 110, ttl 10. -/
theorem C2_IsStale_iff_age_gt_witness :
    isInt64 10 ∧ (10 : Duration) ≠ minInt64 ∧
    ((((⟨(), 100⟩ : RecordCacheItem Unit).IsStale 10 (clockWorld 110)).1 = true ↔
        (clockWorld 110).Now.1 - (⟨(), 100⟩ : RecordCacheItem Unit).T > 10) ∧
      ((clockWorld 110).Now.1 - (⟨(), 100⟩ : RecordCacheItem Unit).T = 10 →
        ((⟨(), 100⟩ : RecordCacheItem Unit).IsStale 10 (clockWorld 110)).1 = false)) :=
  ⟨by decide, by decide,
    C2_IsStale_iff_age_gt ⟨(), 100⟩ 10 (clockWorld 110) (by decide) (by decide)⟩

/-! ## C3 to C6: `Get` -/

/-- C3: for every engine state and every key `k` that is present in storage and
for which `needRefreshing(k)` is false, `Get(k)` returns the stored value with
a nil error, invokes no fetch strategy and leaves storage unchanged. -/
theorem C3_Get_fresh_hit {S K V : Type} [Inhabited V] (r : RecordCache S K V) (k : K)
    (w : World S K) (hpres : (r.cache.Get w.store k).2 = true)
    (hfresh : (r.needRefreshing k w).1 = false) :
    (r.Get k w).1 = ((r.cache.Get w.store k).1.V, none) ∧
    (r.Get k w).2.fetches = w.fetches ∧
    (r.Get k w).2.store = w.store := by
  rw [Get_unfold, hfresh]
  simp only [Bool.false_eq_true, if_false, hpres, if_true, needRefreshing_snd, and_self]

/-- C3 on the test `Successfully fetch active record`. -/
theorem C3_Get_fresh_hit_witness :
    (stubCache.toCache.Get stubWorld.store "active1").2 = true ∧
    ((stubEngine none none).needRefreshing "active1" stubWorld).1 = false ∧
    ((stubEngine none none).Get "active1" stubWorld).1 = (1, none) ∧
    ((stubEngine none none).Get "active1" stubWorld).2.fetches = [] :=
  have h := C3_Get_fresh_hit (stubEngine none none) "active1" stubWorld (by decide) (by decide)
  ⟨by decide, by decide, h.1, h.2.1⟩

/-- C4: for every engine over the in-memory store with an on-demand strategy
attached, every `recordTtl` and every key `k` that is absent or stale under
`recordTtl`: if the strategy returns `v` for `k` without error, then `Get(k)`
returns `v` with a nil error, the strategy was invoked once, and afterwards
storage holds at `k` the entry made of `v` and the clock reading taken by the
refresh (the reading that follows the one `needRefreshing` took, if any). -/
theorem C4_Get_refreshes {K V : Type} [DecidableEq K] [Inhabited V] (m : MemoryCache)
    (r : RecordCache (Heap K (RecordCacheItem V)) K V) (f : OnDemandFetcher K V) (k : K) (v : V)
    (w : World (Heap K (RecordCacheItem V)) K)
    (hc : r.cache = m.toCache) (hod : r.onDemandFetcher = some f)
    (hk : (m.Get w.store k).2 = false ∨ ((m.Get w.store k).1.IsStale r.recordTtl w).1 = true)
    (hv : f.FetchByKey k = (v, none)) :
    (r.Get k w).1 = (v, none) ∧
    (r.Get k w).2.fetches = w.fetches ++ [FetchCall.byKey k] ∧
    (m.All (r.Get k w).2.store).lookup k =
      some { V := v, T := w.clock (if (m.Get w.store k).2 then w.ticks + 1 else w.ticks) } := by
  have hneed : (r.needRefreshing k w).1 = true := by
    rw [needRefreshing_fst, hod, hc]
    rcases hk with h | h
    · simp [MemoryCache.toCache, h]
    · simp only [MemoryCache.toCache, Option.isSome_some, if_true, h, Bool.or_true]
  have hl : ∀ t : Time, ((((w.store.write m.c
      ((w.store.obj m.c).insert k { V := v, T := t })).obj m.c).lookup k) =
        some { V := v, T := t }) := by
    intro t
    simp only [Heap.write, if_true]
    exact AList.lookup_insert _
  rw [Get_unfold, hneed, if_pos rfl, refreshItem_ok r f k v _ hod hv, needRefreshing_snd]
  simp only [hc, MemoryCache.toCache, MemoryCache.Set, MemoryCache.Get, MemoryCache.All, hl,
    if_true, and_self]

/-- C4 on the test `Successfully refreshItem and return Stale record`. -/
theorem C4_Get_refreshes_witness :
    ((stubEngine (some onDemandFetcherMock) none).Get "stale1" stubWorld).1 = (10, none) ∧
    (stubCache.All ((stubEngine (some onDemandFetcherMock) none).Get "stale1" stubWorld).2.store).lookup
      "stale1" = some { V := 10, T := stubNow } :=
  have h := C4_Get_refreshes stubCache (stubEngine (some onDemandFetcherMock) none)
    onDemandFetcherMock "stale1" 10 stubWorld rfl rfl (Or.inr (by decide)) rfl
  ⟨h.1, h.2.2⟩

/-- C5: for every engine with no on-demand strategy attached (with or without
a bulk strategy) and every key `k` that is absent from storage, or present but
stale under `allTtl`, `Get(k)` returns the zero value together with the
no-fetcher error, invokes no strategy and leaves storage unchanged. -/
theorem C5_Get_without_fetcher {S K V : Type} [Inhabited V] (r : RecordCache S K V) (k : K)
    (w : World S K) (hod : r.onDemandFetcher = none)
    (hk : (r.cache.Get w.store k).2 = false ∨
      ((r.cache.Get w.store k).2 = true ∧
        ((r.cache.Get w.store k).1.IsStale r.allTtl w).1 = true)) :
    (r.Get k w).1 =
      (default, some "value not in cache and on demand fetcher is not initalised") ∧
    (r.Get k w).2.fetches = w.fetches ∧
    (r.Get k w).2.store = w.store := by
  have hneed : (r.needRefreshing k w).1 = true := by
    rw [needRefreshing_fst, hod]
    rcases hk with h | h
    · simp [h]
    · simp [h.2]
  rw [Get_unfold, hneed, if_pos rfl, refreshItem_none r k _ hod, needRefreshing_snd]
  simp only [and_self]

/-- C5 on the test `Error as onDemandFetcher is nil`. -/
theorem C5_Get_without_fetcher_witness :
    ((stubEngine none none).Get "stale1" stubWorld).1 =
      (0, some "value not in cache and on demand fetcher is not initalised") ∧
    ((stubEngine none none).Get "stale1" stubWorld).2.store = stubWorld.store :=
  have h := C5_Get_without_fetcher (stubEngine none none) "stale1" stubWorld rfl
    (Or.inr ⟨by decide, by decide⟩)
  ⟨h.1, h.2.2⟩

/-- C6: for every engine with an on-demand strategy and every key `k` that
needs refreshing: if the strategy returns error `e` for `k`, then `Get(k)`
returns the zero value and exactly the error `e`, and storage is what it was
before the call, so the prior entry under `k`, if any, is still read back. -/
theorem C6_Get_fetch_error {S K V : Type} [Inhabited V] (r : RecordCache S K V)
    (f : OnDemandFetcher K V) (k : K) (v : V) (e : Error) (w : World S K)
    (hod : r.onDemandFetcher = some f) (hneed : (r.needRefreshing k w).1 = true)
    (he : f.FetchByKey k = (v, some e)) :
    (r.Get k w).1 = (default, some e) ∧
    (r.Get k w).2.store = w.store ∧
    r.cache.Get (r.Get k w).2.store k = r.cache.Get w.store k := by
  rw [Get_unfold, hneed, if_pos rfl, refreshItem_error r f k v e _ hod he, needRefreshing_snd]
  simp only [World.called, and_self]

/-- C6 on the test `Error with fetching Stale record`. -/
theorem C6_Get_fetch_error_witness :
    ((stubEngine (some FetcherError) none).needRefreshing "stale1" stubWorld).1 = true ∧
    ((stubEngine (some FetcherError) none).Get "stale1" stubWorld).1 = (0, some "error") ∧
    ((stubEngine (some FetcherError) none).Get "stale1" stubWorld).2.store = stubWorld.store :=
  have h := C6_Get_fetch_error (stubEngine (some FetcherError) none) FetcherError "stale1" 1000
    "error" stubWorld rfl (by decide) rfl
  ⟨by decide, h.1, h.2.1⟩

/-! ## C7 to C9: the sweep -/

/-- C7 at the seeded store of the spec: the store holds `"stale_key"`, the bulk
strategy succeeds with `a -> 1, b -> 2` and the bulk refresh is due. After the
sweep `a` and `b` are stored with the capture time of the sweep, and
`"stale_key"`, which is not a key of the fetched mapping, is still stored with
its old entry: `Clear` reported success without emptying the map object. -/
theorem C7_sweep_keeps_unfetched_key :
    (bulkEngineAB.refreshDue seededWorld).1 = true ∧
    asyncFetcherAB.FetchAll.2 = none ∧
    asyncFetcherAB.FetchAll.1.lookup "stale_key" = none ∧
    (bulkEngineAB.refreshCache seededWorld).2.fetches = [FetchCall.all] ∧
    (stubCache.All (bulkEngineAB.refreshCache seededWorld).2.store).lookup "a" =
      some { V := 1, T := stubNow } ∧
    (stubCache.All (bulkEngineAB.refreshCache seededWorld).2.store).lookup "b" =
      some { V := 2, T := stubNow } ∧
    (stubCache.All (bulkEngineAB.refreshCache seededWorld).2.store).lookup "stale_key" =
      some { V := 7, T := 5 } ∧
    stubCache.Has (bulkEngineAB.refreshCache seededWorld).2.store "stale_key" = true := by
  decide

/-- C8, as stated, fails: the bulk strategy returns an error, the last bulk
refresh is an hour old, and the sweep still moves `lastUpdated` to the clock
reading of the sweep. -/
theorem C8_counterexample :
    failingBulkEngine.asyncFetcher = some asyncFetcherError ∧
    asyncFetcherError.FetchAll.2 = some "error" ∧
    (failingBulkEngine.refreshCache stubWorld).2.fetches = [FetchCall.all] ∧
    (failingBulkEngine.refreshCache stubWorld).2.store = stubWorld.store ∧
    failingBulkEngine.lastUpdated = stubNow - hour ∧
    (failingBulkEngine.refreshCache stubWorld).1.lastUpdated = stubNow ∧
    (failingBulkEngine.refreshCache stubWorld).1.lastUpdated ≠ failingBulkEngine.lastUpdated :=
  ⟨rfl, rfl, by decide, rfl, rfl, by decide, by decide⟩

/-- C8 (amended): for every engine state, a sweep changes `lastUpdated` only if
the bulk strategy was invoked in that sweep. Whenever the bulk refresh is due,
`lastUpdated` after the sweep is the clock reading taken once
`refreshAllRecords` has returned, the last reading of the sweep, whether the
bulk fetch succeeded or failed; when the bulk refresh is not due, `lastUpdated`
after the sweep equals `lastUpdated` before it. -/
theorem C8_lastUpdated_set_when_due {S K V : Type} (r : RecordCache S K V) (w : World S K) :
    ((r.refreshCache w).1.lastUpdated ≠ r.lastUpdated →
      r.asyncFetcher.isSome = true ∧
      (r.refreshCache w).2.fetches = w.fetches ++ [FetchCall.all]) ∧
    ((r.refreshDue (if r.onDemandFetcher.isSome then r.removeStale w else w)).1 = true →
      (r.refreshCache w).1.lastUpdated =
        (r.refreshCache w).2.clock ((r.refreshCache w).2.ticks - 1)) ∧
    ((r.refreshDue (if r.onDemandFetcher.isSome then r.removeStale w else w)).1 = false →
      (r.refreshCache w).1.lastUpdated = r.lastUpdated) := by
  have hw1 : (if r.onDemandFetcher.isSome then r.removeStale w else w).fetches = w.fetches := by
    split
    · exact (removeStale_frame r w).1
    · rfl
  rw [refreshCache_unfold]
  cases hd : (r.refreshDue (if r.onDemandFetcher.isSome then r.removeStale w else w)).1
  · simp
  · have hsome := refreshDue_isSome r _ hd
    have hfr := refreshAllRecords_frame r
      (r.refreshDue (if r.onDemandFetcher.isSome then r.removeStale w else w)).2 hsome
    have hdf := refreshDue_frame r (if r.onDemandFetcher.isSome then r.removeStale w else w)
    simp only [if_true, World.Now, hsome, hfr.1, hdf.2.1, hw1, Nat.add_sub_cancel, and_self,
      implies_true, Bool.true_eq_false, false_implies]

/-- C8 (amended) on the failing bulk engine: the sweep is due, the fetch fails,
and `lastUpdated` becomes the last clock reading of the sweep. -/
theorem C8_lastUpdated_set_when_due_witness :
    (failingBulkEngine.refreshDue
      (if failingBulkEngine.onDemandFetcher.isSome then failingBulkEngine.removeStale stubWorld
        else stubWorld)).1 = true ∧
    (failingBulkEngine.refreshCache stubWorld).1.lastUpdated =
      (failingBulkEngine.refreshCache stubWorld).2.clock
        ((failingBulkEngine.refreshCache stubWorld).2.ticks - 1) :=
  ⟨by decide, (C8_lastUpdated_set_when_due failingBulkEngine stubWorld).2.1 (by decide)⟩

/-- C9: for every engine with only a bulk strategy whose `FetchAll` returns an
error, a sweep in which the bulk refresh is due invokes the strategy once and
leaves the state of the storage backend exactly as it was. `refreshCache`
returns no error to anyone. -/
theorem C9_sweep_bulk_error_keeps_storage {S K V : Type} (r : RecordCache S K V)
    (f : AsyncFetcher K V) (latest : GoMap K V) (e : Error) (w : World S K)
    (hod : r.onDemandFetcher = none) (haf : r.asyncFetcher = some f)
    (hf : f.FetchAll = (latest, some e)) (hdue : (r.refreshDue w).1 = true) :
    (r.refreshCache w).2.store = w.store ∧
    (r.refreshCache w).2.fetches = w.fetches ++ [FetchCall.all] := by
  rw [refreshCache_unfold]
  simp only [hod, Option.isSome_none, Bool.false_eq_true, if_false, hdue, if_true,
    refreshAllRecords_error r f latest e _ haf hf, World.Now, World.called,
    (refreshDue_frame r w).1, (refreshDue_frame r w).2.1, and_self]

/-- C9 on the failing bulk engine over the stub store. -/
theorem C9_sweep_bulk_error_keeps_storage_witness :
    (failingBulkEngine.refreshDue stubWorld).1 = true ∧
    (failingBulkEngine.refreshCache stubWorld).2.store = stubWorld.store ∧
    (failingBulkEngine.refreshCache stubWorld).2.fetches = [FetchCall.all] :=
  ⟨by decide,
    C9_sweep_bulk_error_keeps_storage failingBulkEngine asyncFetcherError ∅ "error" stubWorld
      rfl rfl rfl (by decide)⟩

/-! ## C10: `MemoryCache.Clear` -/

/-- C10 at the store of `TestMemoryCache_Clear`, `cache full returns true`:
`Clear` returns true, and afterwards the store still holds both entries, so
`All` is not empty and `Has` is true for the keys that were present. -/
theorem C10_Clear_leaves_store_full :
    (fullCache.Clear fullHeap).1 = true ∧
    (fullCache.All (fullCache.Clear fullHeap).2).entries = [⟨2, "two"⟩, ⟨1, "one"⟩] ∧
    (fullCache.All (fullCache.Clear fullHeap).2).entries = (fullCache.All fullHeap).entries ∧
    fullCache.Has (fullCache.Clear fullHeap).2 1 = true ∧
    fullCache.Has (fullCache.Clear fullHeap).2 2 = true := by
  decide

/-! ## Lemmas on the sweep and the scheduler -/

theorem refreshDue_fst {S K V : Type} (r : RecordCache S K V) (w : World S K) :
    (r.refreshDue w).1 =
      (r.asyncFetcher.isSome &&
        (decide (r.lastUpdated = 0) ||
          decide (r.lastUpdated < w.clock w.ticks + Duration.mul (-1) r.allTtl))) := by
  unfold RecordCache.refreshDue
  cases r.asyncFetcher with
  | none => rfl
  | some f =>
    by_cases hz : r.lastUpdated = 0
    · simp [Time.IsZero, hz]
    · simp [Time.IsZero, hz, World.Now, Time.Before, Time.Add]

theorem refreshCache_fetches {S K V : Type} (r : RecordCache S K V) (w : World S K) :
    (r.refreshCache w).2.fetches =
      (if (r.refreshDue (if r.onDemandFetcher.isSome then r.removeStale w else w)).1 then
        w.fetches ++ [FetchCall.all]
      else w.fetches) := by
  have hw1 : (if r.onDemandFetcher.isSome then r.removeStale w else w).fetches = w.fetches := by
    split
    · exact (removeStale_frame r w).1
    · rfl
  have hdf := refreshDue_frame r (if r.onDemandFetcher.isSome then r.removeStale w else w)
  rw [refreshCache_unfold]
  cases hd : (r.refreshDue (if r.onDemandFetcher.isSome then r.removeStale w else w)).1
  · simp only [Bool.false_eq_true, if_false, hdf.2.1, hw1]
  · have hsome := refreshDue_isSome r _ hd
    have hfr := refreshAllRecords_frame r
      (r.refreshDue (if r.onDemandFetcher.isSome then r.removeStale w else w)).2 hsome
    simp only [if_true, World.Now, hfr.1, hdf.2.1, hw1]

theorem refreshCache_crons {S K V : Type} (r : RecordCache S K V) (w : World S K) :
    (r.refreshCache w).2.crons = w.crons ∧ (r.refreshCache w).1.cron = r.cron := by
  have hw1 : (if r.onDemandFetcher.isSome then r.removeStale w else w).crons = w.crons := by
    split
    · exact (removeStale_frame r w).2.2
    · rfl
  have hdf := refreshDue_frame r (if r.onDemandFetcher.isSome then r.removeStale w else w)
  rw [refreshCache_unfold]
  cases hd : (r.refreshDue (if r.onDemandFetcher.isSome then r.removeStale w else w)).1
  · simp only [Bool.false_eq_true, if_false, hdf.2.2.2, hw1, and_self]
  · have hsome := refreshDue_isSome r _ hd
    have hfr := refreshAllRecords_frame r
      (r.refreshDue (if r.onDemandFetcher.isSome then r.removeStale w else w)).2 hsome
    simp only [if_true, World.Now, hfr.2.2, hdf.2.2.2, hw1, and_self]

theorem setSchedule_scheduled {S K V : Type} (r : RecordCache S K V) (w : World S K) (c : Nat)
    (hc : r.cron = some c) : r.setSchedule w = (none, r, w) := by
  unfold RecordCache.setSchedule
  rw [hc]

theorem setSchedule_first {S K V : Type} (r : RecordCache S K V) (w : World S K)
    (hc : r.cron = none) :
    (r.setSchedule w).2.1.cron = some w.crons ∧ (r.setSchedule w).2.2.crons = w.crons + 1 := by
  unfold RecordCache.setSchedule
  rw [hc]
  simp only [(refreshCache_crons r w).1, and_self]

theorem SetCall.apply_cron {S K V : Type} (c : SetCall K V) (r : RecordCache S K V)
    (w : World S K) :
    (r.cron = none →
      (c.apply (r, w)).1.cron = some w.crons ∧ (c.apply (r, w)).2.crons = w.crons + 1) ∧
    (∀ n, r.cron = some n →
      (c.apply (r, w)).1.cron = some n ∧ (c.apply (r, w)).2.crons = w.crons) := by
  cases c with
  | onDemand f ttl =>
    refine ⟨fun hc => ?_, fun n hc => ?_⟩
    · exact setSchedule_first
        ({ ({ r with onDemandFetcher := f } : RecordCache S K V) with recordTtl := ttl }) w hc
    · simp only [SetCall.apply, RecordCache.SetOnDemandFetcher,
        RecordCache.refreshStaleRecordsEvery, RecordCache.setSchedule, hc, and_self]
  | async f ttl =>
    refine ⟨fun hc => ?_, fun n hc => ?_⟩
    · exact setSchedule_first
        ({ ({ r with asyncFetcher := f } : RecordCache S K V) with allTtl := ttl }) w hc
    · simp only [SetCall.apply, RecordCache.SetAsyncFetcher,
        RecordCache.refreshAllRecordsEvery, RecordCache.setSchedule, hc, and_self]

theorem applyCalls_scheduled {S K V : Type} (calls : List (SetCall K V))
    (rw : RecordCache S K V × World S K) (n : Nat) (hc : rw.1.cron = some n) :
    (applyCalls calls rw).1.cron = some n ∧ (applyCalls calls rw).2.crons = rw.2.crons := by
  induction calls generalizing rw with
  | nil => exact ⟨hc, rfl⟩
  | cons c rest ih =>
    have hstep := (SetCall.apply_cron c rw.1 rw.2).2 n hc
    have hrest := ih (c.apply rw) hstep.1
    exact ⟨hrest.1, hrest.2.trans hstep.2⟩

/-! ## C11, C13: when the sweep invokes the bulk strategy -/

/-- C11, as stated, fails on the boundary: a bulk strategy is attached, the last
bulk refresh is not the zero time and exactly `allTtl` (100 seconds) has
elapsed, yet the sweep does not invoke the bulk strategy. -/
theorem C11_counterexample :
    boundaryBulkEngine.asyncFetcher.isSome = true ∧
    boundaryBulkEngine.lastUpdated ≠ 0 ∧
    stubWorld.Now.1 - boundaryBulkEngine.lastUpdated ≥ boundaryBulkEngine.allTtl ∧
    stubWorld.Now.1 - boundaryBulkEngine.lastUpdated = boundaryBulkEngine.allTtl ∧
    (boundaryBulkEngine.refreshCache stubWorld).2.fetches = [] := by
  decide

/-- C11 (amended): for every engine state whose `allTtl` is not the minimum
duration, a sweep invokes the bulk strategy (once) if and only if a bulk
strategy is attached and `lastUpdated` is the zero time or
`now - lastUpdated > allTtl`, where `now` is the clock reading the sweep takes
for this test; otherwise it invokes no strategy. When exactly `allTtl` has
elapsed since a non-zero `lastUpdated`, the bulk strategy is not invoked. -/
theorem C11_bulk_invoked_iff {S K V : Type} (r : RecordCache S K V) (w : World S K)
    (hr : isInt64 r.allTtl) (hmin : r.allTtl ≠ minInt64) :
    ((r.refreshCache w).2.fetches = w.fetches ++ [FetchCall.all] ↔
      (r.asyncFetcher.isSome = true ∧
        (r.lastUpdated = 0 ∨
          (if r.onDemandFetcher.isSome then r.removeStale w else w).Now.1 - r.lastUpdated >
            r.allTtl))) ∧
    ((r.refreshCache w).2.fetches ≠ w.fetches ++ [FetchCall.all] →
      (r.refreshCache w).2.fetches = w.fetches) ∧
    (r.lastUpdated ≠ 0 →
      (if r.onDemandFetcher.isSome then r.removeStale w else w).Now.1 - r.lastUpdated =
        r.allTtl →
      (r.refreshCache w).2.fetches = w.fetches) := by
  have key : (r.refreshDue (if r.onDemandFetcher.isSome then r.removeStale w else w)).1 = true ↔
      (r.asyncFetcher.isSome = true ∧
        (r.lastUpdated = 0 ∨
          (if r.onDemandFetcher.isSome then r.removeStale w else w).Now.1 - r.lastUpdated >
            r.allTtl)) := by
    rw [refreshDue_fst, Duration.mul_neg_one _ hr hmin]
    simp only [Bool.and_eq_true, Bool.or_eq_true, decide_eq_true_eq]
    exact and_congr Iff.rfl (or_congr Iff.rfl (lt_add_neg_iff_age_gt _ _ _))
  rw [refreshCache_fetches]
  cases hd : (r.refreshDue (if r.onDemandFetcher.isSome then r.removeStale w else w)).1
  · rw [hd] at key
    refine ⟨?_, fun _ => by simp, fun _ _ => by simp⟩
    constructor
    · intro h
      simp at h
    · intro h
      exact absurd (key.mpr h) (by simp)
  · rw [hd] at key
    have hk := key.mp rfl
    refine ⟨?_, fun h => absurd (by simp) h, fun hz he => ?_⟩
    · simp only [if_true, true_iff]
      exact hk
    · rcases hk.2 with h0 | hgt
      · exact absurd h0 hz
      · exact absurd he (Int.ne_of_gt hgt)

/-- C11 (amended) on the failing bulk engine, whose last refresh is an hour old
under a ttl of 100 seconds: the sweep invokes the bulk strategy. -/
theorem C11_bulk_invoked_iff_witness :
    isInt64 failingBulkEngine.allTtl ∧ failingBulkEngine.allTtl ≠ minInt64 ∧
    (failingBulkEngine.refreshCache stubWorld).2.fetches = stubWorld.fetches ++ [FetchCall.all] :=
  ⟨by decide, by decide,
    (C11_bulk_invoked_iff failingBulkEngine stubWorld (by decide) (by decide)).1.mpr
      ⟨rfl, Or.inr (by decide)⟩⟩

/-- C13: for every engine with a bulk strategy and no on-demand strategy, a
sweep in which the bulk refresh is not due deletes nothing and fetches nothing:
the state of the storage backend after the sweep is the state before it. -/
theorem C13_bulk_only_not_due_keeps_storage {S K V : Type} (r : RecordCache S K V)
    (f : AsyncFetcher K V) (w : World S K) (hod : r.onDemandFetcher = none)
    (_haf : r.asyncFetcher = some f) (hnot : (r.refreshDue w).1 = false) :
    (r.refreshCache w).2.store = w.store ∧ (r.refreshCache w).2.fetches = w.fetches := by
  rw [refreshCache_unfold]
  simp only [hod, Option.isSome_none, Bool.false_eq_true, if_false, hnot,
    (refreshDue_frame r w).1, (refreshDue_frame r w).2.1, and_self]

/-- C13 on the boundary engine over the stub: `stale1` is an hour old, stale
under both TTLs of 100 seconds, and it is still stored after the sweep. -/
theorem C13_bulk_only_not_due_keeps_storage_witness :
    (boundaryBulkEngine.refreshDue stubWorld).1 = false ∧
    ((⟨1, stubNow - hour⟩ : RecordCacheItem Int).IsStale boundaryBulkEngine.allTtl stubWorld).1
      = true ∧
    (boundaryBulkEngine.refreshCache stubWorld).2.store = stubWorld.store ∧
    (stubCache.All (boundaryBulkEngine.refreshCache stubWorld).2.store).lookup "stale1" =
      some ⟨1, stubNow - hour⟩ :=
  have h := C13_bulk_only_not_due_keeps_storage boundaryBulkEngine asyncFetcherMock stubWorld
    rfl rfl (by decide)
  ⟨by decide, by decide, h.1, by rw [h.1]; decide⟩

/-! ## C14: `needRefreshing` -/

/-- C14: for every engine state and key `k`, `needRefreshing(k)` is true if `k`
is absent from storage; otherwise it equals `IsStale` of the entry under
`recordTtl` when an on-demand strategy is attached, and under `allTtl` when
none is attached, whether or not a bulk strategy is attached. -/
theorem C14_needRefreshing_cases {S K V : Type} (r : RecordCache S K V) (k : K) (w : World S K) :
    ((r.cache.Get w.store k).2 = false → (r.needRefreshing k w).1 = true) ∧
    ((r.cache.Get w.store k).2 = true → r.onDemandFetcher.isSome = true →
      (r.needRefreshing k w).1 = ((r.cache.Get w.store k).1.IsStale r.recordTtl w).1) ∧
    ((r.cache.Get w.store k).2 = true → r.onDemandFetcher = none →
      (r.needRefreshing k w).1 = ((r.cache.Get w.store k).1.IsStale r.allTtl w).1) := by
  rw [needRefreshing_fst]
  refine ⟨fun h => ?_, fun h hs => ?_, fun h hn => ?_⟩
  · simp [h]
  · simp [h, hs]
  · simp [h, hn]

/-- C14 on the stub: an absent key needs refreshing, and a present key follows
`IsStale` under the TTL selected by the on-demand strategy. -/
theorem C14_needRefreshing_cases_witness :
    ((stubEngine none none).needRefreshing "absent" stubWorld).1 = true ∧
    ((stubEngine (some onDemandFetcherMock) none).needRefreshing "stale1" stubWorld).1 =
      ((stubCache.toCache.Get stubWorld.store "stale1").1.IsStale
        (stubEngine (some onDemandFetcherMock) none).recordTtl stubWorld).1 :=
  ⟨(C14_needRefreshing_cases (stubEngine none none) "absent" stubWorld).1 (by decide),
    (C14_needRefreshing_cases (stubEngine (some onDemandFetcherMock) none) "stale1"
      stubWorld).2.1 (by decide) rfl⟩

/-! ## C15, C16: the scheduler is created once -/

/-- C15: for every non-empty sequence `c :: rest` of `SetOnDemandFetcher` /
`SetAsyncFetcher` calls on a newly constructed engine, the scheduler handle is
unset before the first call, the first call creates the scheduler, every later
call leaves that same handle in place, and exactly one scheduler has been
created by the end of the sequence. -/
theorem C15_scheduler_created_once {S K V : Type} (cache : Cache S K (RecordCacheItem V))
    (w : World S K) (c : SetCall K V) (rest : List (SetCall K V)) :
    (NewRecordCache cache).cron = none ∧
    (applyCalls [c] (NewRecordCache cache, w)).1.cron = some w.crons ∧
    (applyCalls (c :: rest) (NewRecordCache cache, w)).1.cron = some w.crons ∧
    (applyCalls (c :: rest) (NewRecordCache cache, w)).2.crons = w.crons + 1 := by
  have hfirst := (SetCall.apply_cron c (NewRecordCache cache) w).1 rfl
  have hrest := applyCalls_scheduled rest (c.apply (NewRecordCache cache, w)) w.crons hfirst.1
  exact ⟨rfl, hfirst.1, hrest.1, hrest.2.trans hfirst.2⟩

/-- C16: on an engine that already has a scheduler, `SetOnDemandFetcher(f, ttl)`
changes only the on-demand strategy and `recordTtl`, and `SetAsyncFetcher(g, ttl)`
changes only the bulk strategy and `allTtl`. Every other field of the engine,
the scheduler handle among them, is unchanged, and so is the whole world:
storage, the clock position and the log of strategy invocations, so no sweep
and no fetch is run by the call. -/
theorem C16_setters_on_scheduled_engine {S K V : Type} (r : RecordCache S K V) (w : World S K)
    (n : Nat) (f : Option (OnDemandFetcher K V)) (g : Option (AsyncFetcher K V)) (ttl : Duration)
    (hc : r.cron = some n) :
    r.SetOnDemandFetcher f ttl w =
      ({ onDemandFetcher := f, asyncFetcher := r.asyncFetcher, cache := r.cache,
         recordTtl := ttl, allTtl := r.allTtl, lastUpdated := r.lastUpdated, cron := r.cron },
        w) ∧
    r.SetAsyncFetcher g ttl w =
      ({ onDemandFetcher := r.onDemandFetcher, asyncFetcher := g, cache := r.cache,
         recordTtl := r.recordTtl, allTtl := ttl, lastUpdated := r.lastUpdated, cron := r.cron },
        w) := by
  constructor
  · simp only [RecordCache.SetOnDemandFetcher, RecordCache.refreshStaleRecordsEvery,
      RecordCache.setSchedule, hc]
  · simp only [RecordCache.SetAsyncFetcher, RecordCache.refreshAllRecordsEvery,
      RecordCache.setSchedule, hc]

/-- C16 on the scheduled stub engine: attaching a bulk strategy fetches
nothing, reads no clock and keeps the handle. -/
theorem C16_setters_on_scheduled_engine_witness :
    scheduledEngine.cron = some 0 ∧
    (scheduledEngine.SetAsyncFetcher (some asyncFetcherMock) (100 * second) stubWorld).2.fetches
      = [] ∧
    (scheduledEngine.SetAsyncFetcher (some asyncFetcherMock) (100 * second) stubWorld).1.cron
      = some 0 :=
  have h := (C16_setters_on_scheduled_engine scheduledEngine stubWorld 0 none
    (some asyncFetcherMock) (100 * second) rfl).2
  ⟨rfl, by rw [h]; rfl, by rw [h]; rfl⟩

/-! ## Lemmas on `MemoryCache` under the loops of the engine -/

theorem Set_obj {K V : Type} [DecidableEq K] (m : MemoryCache) (h : Heap K V) (k : K) (v : V) :
    (m.Set h k v).2.obj m.c = (h.obj m.c).insert k v := by
  simp [MemoryCache.Set, Heap.write]

theorem Delete_obj {K V : Type} [DecidableEq K] (m : MemoryCache) (h : Heap K V) (k : K) :
    (m.Delete h k).2.obj m.c = (h.obj m.c).erase k := by
  simp [MemoryCache.Delete, Heap.write]

theorem foldl_Set_lookup {K V : Type} [DecidableEq K] (m : MemoryCache) (now : Time) (k : K)
    (l : List (Sigma (fun _ : K => V))) (hl : l.NodupKeys) (h : Heap K (RecordCacheItem V)) :
    ((l.foldl (fun s kv => (m.Set s kv.1 { V := kv.2, T := now }).2) h).obj m.c).lookup k =
      (match l.dlookup k with
        | some v => some { V := v, T := now }
        | none => (h.obj m.c).lookup k) := by
  induction l generalizing h with
  | nil => rfl
  | cons kv l ih =>
    rw [List.foldl_cons, ih (List.nodupKeys_cons.mp hl).2]
    by_cases hk : k = kv.1
    · subst hk
      have hnot : kv.1 ∉ l.keys := (List.nodupKeys_cons.mp hl).1
      rw [List.dlookup_eq_none.mpr hnot]
      obtain ⟨a, b⟩ := kv
      rw [List.dlookup_cons_eq, Set_obj]
      exact AList.lookup_insert _
    · rw [List.dlookup_cons_ne l kv hk, Set_obj, AList.lookup_insert_ne hk]

theorem foldl_removeStale_lookup {K V : Type} [DecidableEq K] [Inhabited V] (m : MemoryCache)
    (r : RecordCache (Heap K (RecordCacheItem V)) K V) (hc : r.cache = m.toCache) (now : Time)
    (k : K) (l : List (Sigma (fun _ : K => RecordCacheItem V)))
    (w : World (Heap K (RecordCacheItem V)) K) (hclk : ∀ n, w.clock n = now) :
    (((l.foldl (fun w0 kv =>
        let (stale, w1) := kv.2.IsStale r.recordTtl w0
        if stale then { w1 with store := (r.cache.Delete w1.store kv.1).2 } else w1) w).store.obj
          m.c).lookup k) =
      (if l.any (fun kv => decide (kv.1 = k) &&
          decide (kv.2.T < now + Duration.mul (-1) r.recordTtl)) then none
        else (w.store.obj m.c).lookup k) := by
  induction l generalizing w with
  | nil => rfl
  | cons kv l ih =>
    rw [List.foldl_cons]
    have hclk1 : ∀ n, (let (stale, w1) := kv.2.IsStale r.recordTtl w
        if stale then { w1 with store := (r.cache.Delete w1.store kv.1).2 } else w1).clock n =
          now := by
      intro n
      rw [(removeStale_step_frame r w kv).2.1]
      exact hclk n
    rw [ih _ hclk1, List.any_cons]
    simp only [RecordCacheItem.IsStale, World.Now, Time.Before, Time.Add, hclk, hc,
      MemoryCache.toCache]
    by_cases hs : kv.2.T < now + Duration.mul (-1) r.recordTtl
    · simp only [hs, decide_True, if_true, Bool.and_true, Delete_obj]
      by_cases hk : kv.1 = k
      · subst hk
        simp [AList.lookup_erase]
      · have hk2 : k ≠ kv.1 := fun h => hk h.symm
        have hd : decide (kv.1 = k) = false := decide_eq_false hk
        simp only [hd, Bool.false_or, AList.lookup_erase_ne hk2]
    · have hd : decide (kv.2.T < now + Duration.mul (-1) r.recordTtl) = false := decide_eq_false hs
      simp only [hd, Bool.and_false, Bool.false_or, Bool.false_eq_true, if_false]

theorem any_entries_eq_lookup {K V : Type} [DecidableEq K] (s : GoMap K V) (k : K)
    (p : V → Bool) :
    s.entries.any (fun kv => decide (kv.1 = k) && p kv.2) =
      (match s.lookup k with
        | some e => p e
        | none => false) := by
  cases hlk : s.lookup k with
  | none =>
    simp only
    rw [List.any_eq_false]
    intro kv hkv hp
    simp only [Bool.and_eq_true, decide_eq_true_eq] at hp
    have hmem : kv.1 ∈ s.keys := List.mem_keys_of_mem hkv
    rw [hp.1] at hmem
    exact (AList.lookup_eq_none.mp hlk) (AList.mem_keys.mpr hmem)
  | some e =>
    simp only
    have hin : (⟨k, e⟩ : Sigma (fun _ : K => V)) ∈ s.entries := AList.mem_lookup_iff.mp hlk
    cases hpe : p e with
    | false =>
      rw [List.any_eq_false]
      intro kv hkv hp
      simp only [Bool.and_eq_true, decide_eq_true_eq] at hp
      obtain ⟨a, b⟩ := kv
      simp only at hp
      obtain ⟨hak, hpb⟩ := hp
      subst hak
      have hb : b ∈ s.lookup a := AList.mem_lookup_iff.mpr hkv
      rw [hlk] at hb
      have hbe : e = b := Option.some.inj hb
      rw [← hbe, hpe] at hpb
      exact Bool.false_ne_true hpb
    | true =>
      rw [List.any_eq_true]
      exact ⟨⟨k, e⟩, hin, by simp [hpe]⟩

/-! ## C12: the sweep of an on-demand engine -/

/-- C12: for every engine over the in-memory store with an on-demand strategy
and no bulk strategy, after a sweep under the clock reading `now` storage is
exactly the pre-sweep storage restricted to the entries that are not stale
under `recordTtl`: a stale entry is gone, a non-stale entry is kept with its
value and capture time, and an absent key stays absent. The sweep invokes no
strategy. -/
theorem C12_sweep_keeps_exactly_fresh {K V : Type} [DecidableEq K] [Inhabited V]
    (m : MemoryCache) (r : RecordCache (Heap K (RecordCacheItem V)) K V)
    (f : OnDemandFetcher K V) (w : World (Heap K (RecordCacheItem V)) K) (now : Time)
    (hc : r.cache = m.toCache) (hod : r.onDemandFetcher = some f) (haf : r.asyncFetcher = none)
    (hclk : ∀ n, w.clock n = now) (k : K) :
    (m.All (r.refreshCache w).2.store).lookup k =
      ((m.All w.store).lookup k).filter (fun e => !(e.IsStale r.recordTtl w).1) ∧
    (r.refreshCache w).2.fetches = w.fetches := by
  have hnd : ∀ w1 : World (Heap K (RecordCacheItem V)) K, r.refreshDue w1 = (false, w1) := by
    intro w1
    unfold RecordCache.refreshDue
    rw [haf]
  have hfe : (r.refreshCache w).2.fetches = w.fetches := by
    rw [refreshCache_fetches, hnd]
    simp
  refine ⟨?_, hfe⟩
  rw [refreshCache_unfold, hnd]
  simp only [Bool.false_eq_true, if_false, hod, Option.isSome_some, if_true]
  unfold RecordCache.removeStale
  have hall : r.cache.All w.store = w.store.obj m.c := by rw [hc]; rfl
  rw [hall]
  simp only [MemoryCache.All]
  rw [foldl_removeStale_lookup m r hc now k _ w hclk,
    any_entries_eq_lookup (w.store.obj m.c) k
      (fun e => decide (e.T < now + Duration.mul (-1) r.recordTtl))]
  cases (w.store.obj m.c).lookup k with
  | none => rfl
  | some e =>
    simp only [IsStale_fst, hclk, Option.filter]
    by_cases hs : e.T < now + Duration.mul (-1) r.recordTtl
    · simp [hs]
    · simp [hs]

/-- C12 on the stub with the on-demand mock: `stale1` is deleted, `active1` is
kept as it was. -/
theorem C12_sweep_keeps_exactly_fresh_witness :
    (stubCache.All ((stubEngine (some onDemandFetcherMock) none).refreshCache
      stubWorld).2.store).lookup "stale1" = none ∧
    (stubCache.All ((stubEngine (some onDemandFetcherMock) none).refreshCache
      stubWorld).2.store).lookup "active1" = some ⟨1, stubNow + hour⟩ :=
  ⟨((C12_sweep_keeps_exactly_fresh stubCache (stubEngine (some onDemandFetcherMock) none)
      onDemandFetcherMock stubWorld stubNow rfl rfl rfl (fun _ => rfl) "stale1").1).trans
      (by decide),
    ((C12_sweep_keeps_exactly_fresh stubCache (stubEngine (some onDemandFetcherMock) none)
      onDemandFetcherMock stubWorld stubNow rfl rfl rfl (fun _ => rfl) "active1").1).trans
      (by decide)⟩

/-! ## C17: the first `SetAsyncFetcher` -/

theorem ne_minInt64_of_nonneg (c : Int) (hc : 0 ≤ c) : c ≠ -9223372036854775808 := by
  omega

theorem not_lt_add_neg_of_elapsed_le (t0 t2 c : Int) (h : t2 - t0 ≤ c) : ¬ t0 < t2 + -c := by
  omega

theorem SetAsyncFetcher_new {S K V : Type} (cache : Cache S K (RecordCacheItem V))
    (f : AsyncFetcher K V) (latest : GoMap K V) (ttl : Duration) (w : World S K)
    (hf : f.FetchAll = (latest, none)) :
    (NewRecordCache cache).SetAsyncFetcher (some f) ttl w =
      ({ onDemandFetcher := none, asyncFetcher := some f, cache := cache, recordTtl := 0,
         allTtl := ttl, lastUpdated := w.clock (w.ticks + 1), cron := some w.crons },
       { store := latest.entries.foldl
           (fun s kv => (cache.Set s kv.1 { V := kv.2, T := w.clock w.ticks }).2)
           (cache.Clear w.store).2,
         clock := w.clock, ticks := w.ticks + 2, fetches := w.fetches ++ [FetchCall.all],
         crons := w.crons + 1 }) := by
  simp [RecordCache.SetAsyncFetcher, RecordCache.refreshAllRecordsEvery, RecordCache.setSchedule,
    NewRecordCache, RecordCache.refreshCache, RecordCache.refreshDue, Time.IsZero,
    RecordCache.refreshAllRecords, hf, World.Now, World.called]

/-- C17, as stated, fails once the clock runs: a new engine over an empty
in-memory store, `SetAsyncFetcher(f, 0)` with `f` succeeding, and a clock that
advances by a nanosecond per reading. When the call returns `active2` is stored
with its value and the capture time of the sweep, but `Get("active2")`, which
reads the clock two readings later, finds the entry stale under `ttl = 0` and
returns the zero value with the no-fetcher error. -/
theorem C17_counterexample :
    asyncFetcherMock.FetchAll.2 = none ∧
    asyncFetcherMock.FetchAll.1.lookup "active2" = some 2 ∧
    (stubCache.All runningWorld.store).entries = [] ∧
    (0 : Duration) ≥ 0 ∧
    (stubCache.All ((NewRecordCache stubCache.toCache).SetAsyncFetcher (some asyncFetcherMock) 0
      runningWorld).2.store).lookup "active2" = some { V := 2, T := stubNow } ∧
    (((NewRecordCache stubCache.toCache).SetAsyncFetcher (some asyncFetcherMock) 0
      runningWorld).1.Get "active2"
      ((NewRecordCache stubCache.toCache).SetAsyncFetcher (some asyncFetcherMock) 0
        runningWorld).2).1 =
      (0, some "value not in cache and on demand fetcher is not initalised") := by
  decide

/-- C17 (amended): for a newly constructed engine over an in-memory store (empty
or not), `SetAsyncFetcher(f, ttl)` with `ttl >= 0` and `f` succeeding with
mapping `latest` runs an immediate synchronous sweep that invokes `f` once:
when the call returns, every key `k` of `latest` is stored with the value
`latest[k]` and the capture time of the sweep; and a `Get(k)` issued then
returns `latest[k]` with a nil error provided the clock reading it takes is at
most `ttl` later than that capture time, in particular when no time has
passed. -/
theorem C17_SetAsyncFetcher_fills_store {K V : Type} [DecidableEq K] [Inhabited V]
    (m : MemoryCache) (f : AsyncFetcher K V) (latest : GoMap K V) (ttl : Duration)
    (w : World (Heap K (RecordCacheItem V)) K) (k : K) (v : V)
    (hf : f.FetchAll = (latest, none)) (httl : 0 ≤ ttl) (hr : isInt64 ttl)
    (hk : latest.lookup k = some v) :
    ((NewRecordCache m.toCache).SetAsyncFetcher (some f) ttl w).2.fetches =
      w.fetches ++ [FetchCall.all] ∧
    (m.All ((NewRecordCache m.toCache).SetAsyncFetcher (some f) ttl w).2.store).lookup k =
      some { V := v, T := w.clock w.ticks } ∧
    (w.clock (w.ticks + 2) - w.clock w.ticks ≤ ttl →
      (((NewRecordCache m.toCache).SetAsyncFetcher (some f) ttl w).1.Get k
        ((NewRecordCache m.toCache).SetAsyncFetcher (some f) ttl w).2).1 = (v, none)) := by
  have hlk : ((latest.entries.foldl
      (fun s kv => (m.Set s kv.1 { V := kv.2, T := w.clock w.ticks }).2)
      (m.Clear w.store).2).obj m.c).lookup k = some { V := v, T := w.clock w.ticks } := by
    rw [foldl_Set_lookup m (w.clock w.ticks) k latest.entries latest.nodupKeys]
    have hd : latest.entries.dlookup k = some v := hk
    rw [hd]
  have hmul : Duration.mul (-1) ttl = -ttl :=
    Duration.mul_neg_one ttl hr (ne_minInt64_of_nonneg ttl httl)
  rw [SetAsyncFetcher_new m.toCache f latest ttl w hf]
  refine ⟨rfl, hlk, fun hwin => ?_⟩
  have hfresh : decide (w.clock w.ticks < w.clock (w.ticks + 2) + -ttl) = false :=
    decide_eq_false (not_lt_add_neg_of_elapsed_le _ _ ttl hwin)
  have hget : (m.toCache (K := K) (V := RecordCacheItem V)).Get
      (latest.entries.foldl
        (fun s kv => ((m.toCache (K := K) (V := RecordCacheItem V)).Set s kv.1
          { V := kv.2, T := w.clock w.ticks }).2)
        ((m.toCache (K := K) (V := RecordCacheItem V)).Clear w.store).2) k =
      ({ V := v, T := w.clock w.ticks }, true) := by
    show MemoryCache.Get m _ k = _
    unfold MemoryCache.Get
    have hlk2 := hlk
    simp only [MemoryCache.toCache] at hlk2 ⊢
    rw [hlk2]
  rw [Get_unfold, needRefreshing_fst]
  simp only [hget, IsStale_fst, hmul, hfresh, Bool.not_true, Bool.or_false,
    Bool.false_eq_true, if_false, if_true, Option.isSome_none]

/-- C17 (amended) on the test `successfully fetch all and return cached active
value` under a running clock: a new engine over a new `MemoryCache`, the mock
bulk strategy, ttl 100 s, and a `Get` two nanoseconds after the capture. -/
theorem C17_SetAsyncFetcher_fills_store_witness :
    (stubCache.All ((NewRecordCache stubCache.toCache).SetAsyncFetcher (some asyncFetcherMock)
      (100 * second) runningWorld).2.store).lookup "active2" = some { V := 2, T := stubNow } ∧
    (((NewRecordCache stubCache.toCache).SetAsyncFetcher (some asyncFetcherMock) (100 * second)
      runningWorld).1.Get "active2"
      ((NewRecordCache stubCache.toCache).SetAsyncFetcher (some asyncFetcherMock) (100 * second)
        runningWorld).2).1 = (2, none) :=
  have h := C17_SetAsyncFetcher_fills_store stubCache asyncFetcherMock
    asyncFetcherMock.FetchAll.1 (100 * second) runningWorld "active2" 2 rfl (by decide)
    (by decide) (by decide)
  ⟨h.2.1, h.2.2 (by decide)⟩

/-! ## C18 to C20: `MemoryCache.Set`, `Delete`, `Get` and `Has` -/

theorem insert_len {K V : Type} [DecidableEq K] (s : GoMap K V) (k : K) (v : V) :
    GoMap.len (s.insert k v) =
      (if (s.lookup k).isSome then GoMap.len s else GoMap.len s + 1) := by
  unfold GoMap.len
  rw [AList.insert_entries]
  by_cases hk : k ∈ s
  · have hsome : (s.lookup k).isSome = true := AList.lookup_isSome.mpr hk
    obtain ⟨b, l1, l2, _, hl, hke⟩ := List.exists_of_kerase (AList.mem_keys.mp hk)
    rw [hsome, if_pos rfl, hke, hl]
    simp only [List.length_cons, List.length_append]
    omega
  · have hnone : s.lookup k = none := AList.lookup_eq_none.mpr hk
    have hnk : k ∉ s.entries.keys := fun h => hk (AList.mem_keys.mpr h)
    rw [hnone, List.kerase_of_not_mem_keys hnk]
    simp

/-- C18: for every `MemoryCache` store, key `k` and value `v`, `Set(k, v)`
returns true and the resulting store is the previous store with `k` mapped to
`v`: `Get(k)` returns `(v, true)`, so an existing entry under `k` is
overwritten, every other key reads as before, and the number of entries grows
by one exactly when `k` was absent. -/
theorem C18_Set_maps_key {K V : Type} [DecidableEq K] [Inhabited V] (m : MemoryCache)
    (h : Heap K V) (k : K) (v : V) :
    (m.Set h k v).1 = true ∧
    m.All (m.Set h k v).2 = (m.All h).insert k v ∧
    m.Get (m.Set h k v).2 k = (v, true) ∧
    (∀ k2, k2 ≠ k → m.Get (m.Set h k v).2 k2 = m.Get h k2) ∧
    GoMap.len (m.All (m.Set h k v).2) =
      (if m.Has h k then GoMap.len (m.All h) else GoMap.len (m.All h) + 1) := by
  have hobj := Set_obj m h k v
  refine ⟨?_, hobj, ?_, fun k2 hne => ?_, ?_⟩
  · simp only [MemoryCache.Set, MemoryCache.Has, Heap.write, if_true]
    rw [AList.lookup_insert]
    rfl
  · unfold MemoryCache.Get
    rw [hobj, AList.lookup_insert]
  · unfold MemoryCache.Get
    rw [hobj, AList.lookup_insert_ne hne]
  · unfold MemoryCache.All MemoryCache.Has
    rw [hobj]
    exact insert_len (h.obj m.c) k v

/-- C18 on the full store of the tests: overwriting key `1` keeps two entries,
adding key `3` makes three. -/
theorem C18_Set_maps_key_witness :
    fullCache.Get (fullCache.Set fullHeap 1 "uno").2 1 = ("uno", true) ∧
    GoMap.len (fullCache.All (fullCache.Set fullHeap 1 "uno").2) = 2 ∧
    GoMap.len (fullCache.All (fullCache.Set fullHeap 3 "three").2) = 3 :=
  ⟨(C18_Set_maps_key fullCache fullHeap 1 "uno").2.2.1,
    (C18_Set_maps_key fullCache fullHeap 1 "uno").2.2.2.2.trans (by decide),
    (C18_Set_maps_key fullCache fullHeap 3 "three").2.2.2.2.trans (by decide)⟩

/-- C19: for every `MemoryCache` store and key `k`, `Delete(k)` returns true
whether or not `k` was present; afterwards `Has(k)` is false and every other
key reads as before, deleting an absent key leaves the store as it was, and
deleting twice leaves the same store as deleting once. -/
theorem C19_Delete_removes_key {K V : Type} [DecidableEq K] [Inhabited V] (m : MemoryCache)
    (h : Heap K V) (k : K) :
    (m.Delete h k).1 = true ∧
    m.Has (m.Delete h k).2 k = false ∧
    (∀ k2, k2 ≠ k → m.Get (m.Delete h k).2 k2 = m.Get h k2) ∧
    (m.Has h k = false → m.All (m.Delete h k).2 = m.All h) ∧
    m.All (m.Delete (m.Delete h k).2 k).2 = m.All (m.Delete h k).2 := by
  have hobj := Delete_obj m h k
  have herase : ∀ s : GoMap K V, s.lookup k = none → s.erase k = s := by
    intro s hs
    have hnk : k ∉ s.entries.keys := fun hmem =>
      (AList.lookup_eq_none.mp hs) (AList.mem_keys.mpr hmem)
    exact AList.ext (List.kerase_of_not_mem_keys hnk)
  have hhas : m.Has (m.Delete h k).2 k = false := by
    unfold MemoryCache.Has
    rw [hobj, AList.lookup_erase]
    rfl
  refine ⟨?_, hhas, fun k2 hne => ?_, fun hab => ?_, ?_⟩
  · have h1 : (m.Delete h k).1 = !m.Has (m.Delete h k).2 k := rfl
    rw [h1, hhas]
    rfl
  · unfold MemoryCache.Get
    rw [hobj, AList.lookup_erase_ne hne]
  · unfold MemoryCache.All
    rw [hobj]
    apply herase
    unfold MemoryCache.Has at hab
    cases hl : (h.obj m.c).lookup k with
    | none => rfl
    | some v => rw [hl] at hab; exact absurd hab (by simp)
  · unfold MemoryCache.All
    rw [Delete_obj m (m.Delete h k).2 k, hobj]
    exact herase _ (AList.lookup_erase k _)

/-- C19 on the full store of the tests: deleting the absent key `9` returns
true and keeps both entries; deleting key `1` leaves one entry. -/
theorem C19_Delete_removes_key_witness :
    (fullCache.Delete fullHeap 9).1 = true ∧
    fullCache.Has fullHeap 9 = false ∧
    fullCache.All (fullCache.Delete fullHeap 9).2 = fullCache.All fullHeap ∧
    fullCache.Has (fullCache.Delete fullHeap 1).2 1 = false :=
  ⟨(C19_Delete_removes_key fullCache fullHeap 9).1, by decide,
    (C19_Delete_removes_key fullCache fullHeap 9).2.2.2.1 (by decide),
    (C19_Delete_removes_key fullCache fullHeap 1).2.1⟩

/-- C20: for every `MemoryCache` store and key `k`, `Get(k)` returns
`(v, true)` when `k` maps to `v` and the zero value with `false` when `k` is
absent, and `Has(k)` is true exactly when `Get(k)` reports found. Both take the
store and return no store: neither changes it. -/
theorem C20_Get_and_Has {K V : Type} [DecidableEq K] [Inhabited V] (m : MemoryCache)
    (h : Heap K V) (k : K) :
    (∀ v, (m.All h).lookup k = some v → m.Get h k = (v, true)) ∧
    ((m.All h).lookup k = none → m.Get h k = (default, false)) ∧
    m.Has h k = (m.Get h k).2 := by
  unfold MemoryCache.All MemoryCache.Get MemoryCache.Has
  refine ⟨fun v hv => ?_, fun hn => ?_, ?_⟩
  · rw [hv]
  · rw [hn]
  · cases (h.obj m.c).lookup k <;> rfl

/-- C20 on the full store of the tests: key `1` is found with `"one"`, key `10`
is not found and reads as the empty string. -/
theorem C20_Get_and_Has_witness :
    fullCache.Get fullHeap 1 = ("one", true) ∧
    fullCache.Get fullHeap 10 = ("", false) ∧
    fullCache.Has fullHeap 10 = false :=
  ⟨(C20_Get_and_Has fullCache fullHeap 1).1 "one" (by decide),
    (C20_Get_and_Has fullCache fullHeap 10).2.1 (by decide),
    ((C20_Get_and_Has fullCache fullHeap 10).2.2).trans (by decide)⟩

/-! ## Lemmas on a newly constructed engine -/

theorem SetOnDemandFetcher_new_empty {S K V : Type} (cache : Cache S K (RecordCacheItem V))
    (od : OnDemandFetcher K V) (ttl : Duration) (w : World S K)
    (hempty : (cache.All w.store).entries = []) :
    (NewRecordCache cache).SetOnDemandFetcher (some od) ttl w =
      ({ onDemandFetcher := some od, asyncFetcher := none, cache := cache, recordTtl := ttl,
         allTtl := 0, lastUpdated := 0, cron := some w.crons },
       { store := w.store, clock := w.clock, ticks := w.ticks, fetches := w.fetches,
         crons := w.crons + 1 }) := by
  simp [RecordCache.SetOnDemandFetcher, RecordCache.refreshStaleRecordsEvery,
    RecordCache.setSchedule, NewRecordCache, RecordCache.refreshCache, RecordCache.refreshDue,
    RecordCache.removeStale, hempty]

theorem SetAsyncFetcher_new_error {S K V : Type} (cache : Cache S K (RecordCacheItem V))
    (f : AsyncFetcher K V) (latest : GoMap K V) (e : Error) (ttl : Duration) (w : World S K)
    (hf : f.FetchAll = (latest, some e)) :
    (NewRecordCache cache).SetAsyncFetcher (some f) ttl w =
      ({ onDemandFetcher := none, asyncFetcher := some f, cache := cache, recordTtl := 0,
         allTtl := ttl, lastUpdated := w.clock w.ticks, cron := some w.crons },
       { store := w.store, clock := w.clock, ticks := w.ticks + 1,
         fetches := w.fetches ++ [FetchCall.all], crons := w.crons + 1 }) := by
  simp [RecordCache.SetAsyncFetcher, RecordCache.refreshAllRecordsEvery, RecordCache.setSchedule,
    NewRecordCache, RecordCache.refreshCache, RecordCache.refreshDue, Time.IsZero,
    RecordCache.refreshAllRecords, hf, World.Now, World.called]

theorem MemoryCache.Get_of_lookup {K V : Type} [DecidableEq K] [Inhabited V] (m : MemoryCache)
    (h : Heap K V) (k : K) :
    m.Get h k = (match (h.obj m.c).lookup k with
      | some v => (v, true)
      | none => (default, false)) := rfl

theorem Get_absent_fetch_ok {K V : Type} [DecidableEq K] [Inhabited V] (m : MemoryCache)
    (r : RecordCache (Heap K (RecordCacheItem V)) K V) (f : OnDemandFetcher K V) (k : K) (v : V)
    (w : World (Heap K (RecordCacheItem V)) K) (hc : r.cache = m.toCache)
    (hod : r.onDemandFetcher = some f) (habs : (w.store.obj m.c).lookup k = none)
    (hv : f.FetchByKey k = (v, none)) :
    (r.Get k w).1 = (v, none) := by
  have hget : r.cache.Get w.store k = (default, false) := by
    rw [hc]
    show m.Get w.store k = _
    rw [MemoryCache.Get_of_lookup, habs]
  have hneed : (r.needRefreshing k w).1 = true := by
    rw [needRefreshing_fst, hget]
    rfl
  rw [Get_unfold, hneed, if_pos rfl, refreshItem_ok r f k v _ hod hv, needRefreshing_snd]
  simp only [hc, MemoryCache.toCache, MemoryCache.Get_of_lookup, Set_obj, AList.lookup_insert,
    if_true]

theorem Get_absent_no_fetcher {K V : Type} [DecidableEq K] [Inhabited V] (m : MemoryCache)
    (r : RecordCache (Heap K (RecordCacheItem V)) K V) (k : K)
    (w : World (Heap K (RecordCacheItem V)) K) (hc : r.cache = m.toCache)
    (hod : r.onDemandFetcher = none) (habs : (w.store.obj m.c).lookup k = none) :
    (r.Get k w).1 =
      (default, some "value not in cache and on demand fetcher is not initalised") := by
  have hget : r.cache.Get w.store k = (default, false) := by
    rw [hc]
    show m.Get w.store k = _
    rw [MemoryCache.Get_of_lookup, habs]
  have hneed : (r.needRefreshing k w).1 = true := by
    rw [needRefreshing_fst, hget]
    rfl
  rw [Get_unfold, hneed, if_pos rfl, refreshItem_none r k _ hod]

theorem Get_fresh_bulk_only {K V : Type} [DecidableEq K] [Inhabited V] (m : MemoryCache)
    (r : RecordCache (Heap K (RecordCacheItem V)) K V) (k : K) (v : V) (t : Time)
    (w : World (Heap K (RecordCacheItem V)) K) (hc : r.cache = m.toCache)
    (hod : r.onDemandFetcher = none)
    (hlk : (w.store.obj m.c).lookup k = some { V := v, T := t })
    (hfresh : ¬ t < w.clock w.ticks + Duration.mul (-1) r.allTtl) :
    (r.Get k w).1 = (v, none) := by
  have hget : r.cache.Get w.store k = ({ V := v, T := t }, true) := by
    rw [hc]
    show m.Get w.store k = _
    rw [MemoryCache.Get_of_lookup, hlk]
  have hneed : (r.needRefreshing k w).1 = false := by
    rw [needRefreshing_fst, hget, hod, IsStale_fst]
    simp only [Option.isSome_none, Bool.false_eq_true, if_false, Bool.not_true, Bool.false_or,
      decide_eq_false hfresh]
  rw [Get_unfold, hneed]
  simp only [Bool.false_eq_true, if_false, hget, if_true]

/-! ## C21 to C23: the keyless facade -/

/-- C21, as stated, fails for the async constructor once time passes: the store
is empty, the origin returns `"hello"` without error and `ttl = 0`, but the
clock advances by a nanosecond per reading, so the entry captured by the
construction sweep is already stale when `Get()` reads the clock, and `Get()`
returns the zero value with the no-fetcher error. -/
theorem C21_counterexample :
    mockFetcher.Fetch = ("hello", none) ∧
    (keylessCache.All tickingWorld.store).entries = [] ∧
    (0 : Duration) ≥ 0 ∧
    ((NewKeylessRecordCacheAsync keylessCache.toCache mockFetcher 0 tickingWorld).1.Get
      (NewKeylessRecordCacheAsync keylessCache.toCache mockFetcher 0 tickingWorld).2).1 =
      ("", some "value not in cache and on demand fetcher is not initalised") := by
  decide

/-- C21 (amended): for a keyless cache over an empty in-memory store with
`ttl >= 0` and an origin whose `Fetch` returns `v` without error, `Get()`
returns `v` with a nil error when the cache was built by
`NewKeylessRecordCacheOnDemand`; when it was built by
`NewKeylessRecordCacheAsync` it does so provided the clock reading taken by
`Get()` is at most `ttl` later than the capture time of the construction sweep,
in particular when no time has passed. `Get()` is the engine's `Get(0)`. -/
theorem C21_keyless_Get_returns_value {V : Type} [Inhabited V] (m : MemoryCache)
    (f : KeylessFetcher V) (v : V) (ttl : Duration)
    (w : World (Heap Int (RecordCacheItem V)) Int)
    (hf : f.Fetch = (v, none)) (hempty : m.All w.store = ∅) (httl : 0 ≤ ttl)
    (hr : isInt64 ttl) :
    ((NewKeylessRecordCacheOnDemand m.toCache f ttl w).1.Get
      (NewKeylessRecordCacheOnDemand m.toCache f ttl w).2).1 = (v, none) ∧
    (w.clock (w.ticks + 2) - w.clock w.ticks ≤ ttl →
      ((NewKeylessRecordCacheAsync m.toCache f ttl w).1.Get
        (NewKeylessRecordCacheAsync m.toCache f ttl w).2).1 = (v, none)) ∧
    (∀ (c : KeylessRecordCache (Heap Int (RecordCacheItem V)) V)
      (w2 : World (Heap Int (RecordCacheItem V)) Int), c.Get w2 = c.RecordCache.Get 0 w2) := by
  have hobj : w.store.obj m.c = ∅ := hempty
  have hent : ((m.toCache (K := Int) (V := RecordCacheItem V)).All w.store).entries = [] := by
    show (w.store.obj m.c).entries = []
    rw [hobj]
    rfl
  refine ⟨?_, fun hwin => ?_, fun c w2 => rfl⟩
  · unfold NewKeylessRecordCacheOnDemand KeylessRecordCache.Get
    rw [SetOnDemandFetcher_new_empty m.toCache (newOnDemandFetcher f) ttl w hent]
    refine Get_absent_fetch_ok m _ (newOnDemandFetcher f) 0 v _ rfl rfl ?_ hf
    show (w.store.obj m.c).lookup 0 = none
    rw [hobj]
    exact AList.lookup_empty 0
  · have hfa : (newAsyncFetcher f).FetchAll = ((∅ : GoMap Int V).insert 0 v, none) := by
      unfold newAsyncFetcher
      rw [hf]
    unfold NewKeylessRecordCacheAsync KeylessRecordCache.Get
    rw [SetAsyncFetcher_new m.toCache (newAsyncFetcher f) _ ttl w hfa]
    have hmul : Duration.mul (-1) ttl = -ttl :=
      Duration.mul_neg_one ttl hr (ne_minInt64_of_nonneg ttl httl)
    refine Get_fresh_bulk_only m _ 0 v (w.clock w.ticks) _ rfl rfl ?_ ?_
    · show ((((∅ : GoMap Int V).insert 0 v).entries.foldl
        (fun s kv => (m.Set s kv.1 { V := kv.2, T := w.clock w.ticks }).2)
        (m.Clear w.store).2).obj m.c).lookup 0 = some { V := v, T := w.clock w.ticks }
      rw [foldl_Set_lookup m (w.clock w.ticks) 0 _ ((∅ : GoMap Int V).insert 0 v).nodupKeys]
      have hd : ((∅ : GoMap Int V).insert 0 v).entries.dlookup 0 = some v :=
        AList.lookup_insert (∅ : GoMap Int V)
      rw [hd]
    · show ¬ w.clock w.ticks < w.clock (w.ticks + 2) + Duration.mul (-1) ttl
      rw [hmul]
      exact not_lt_add_neg_of_elapsed_le _ _ ttl hwin

/-- C21 (amended) on the tests `get value` of both constructors, the clock
standing still. -/
theorem C21_keyless_Get_returns_value_witness :
    ((NewKeylessRecordCacheOnDemand keylessCache.toCache mockFetcher (10 * second)
      keylessWorld).1.Get
      (NewKeylessRecordCacheOnDemand keylessCache.toCache mockFetcher (10 * second)
        keylessWorld).2).1 = ("hello", none) ∧
    ((NewKeylessRecordCacheAsync keylessCache.toCache mockFetcher (10 * second)
      keylessWorld).1.Get
      (NewKeylessRecordCacheAsync keylessCache.toCache mockFetcher (10 * second)
        keylessWorld).2).1 = ("hello", none) :=
  have h := C21_keyless_Get_returns_value keylessCache mockFetcher "hello" (10 * second)
    keylessWorld rfl rfl (by decide) (by decide)
  ⟨h.1, h.2.1 (by decide)⟩

/-- C22: for a keyless cache built by `NewKeylessRecordCacheOnDemand` over an
empty store with an origin whose `Fetch` returns error `e`, `Get()` returns the
zero value and exactly the error `e`. -/
theorem C22_keyless_on_demand_error {V : Type} [Inhabited V] (m : MemoryCache)
    (f : KeylessFetcher V) (v0 : V) (e : Error) (ttl : Duration)
    (w : World (Heap Int (RecordCacheItem V)) Int)
    (hf : f.Fetch = (v0, some e)) (hempty : m.All w.store = ∅) :
    ((NewKeylessRecordCacheOnDemand m.toCache f ttl w).1.Get
      (NewKeylessRecordCacheOnDemand m.toCache f ttl w).2).1 = (default, some e) := by
  have hobj : w.store.obj m.c = ∅ := hempty
  have hent : ((m.toCache (K := Int) (V := RecordCacheItem V)).All w.store).entries = [] := by
    show (w.store.obj m.c).entries = []
    rw [hobj]
    rfl
  unfold NewKeylessRecordCacheOnDemand KeylessRecordCache.Get
  rw [SetOnDemandFetcher_new_empty m.toCache (newOnDemandFetcher f) ttl w hent]
  have hget : (m.toCache (K := Int) (V := RecordCacheItem V)).Get w.store 0 =
      (default, false) := by
    show m.Get w.store 0 = _
    rw [MemoryCache.Get_of_lookup, hobj, AList.lookup_empty]
  rw [Get_unfold, needRefreshing_fst]
  simp only [hget, Bool.not_false, Bool.true_or, if_true]
  rw [refreshItem_error _ (newOnDemandFetcher f) 0 v0 e _ rfl hf]

/-- C22 on the test `get error` of `TestNewKeylessRecordCacheOnDemand`. -/
theorem C22_keyless_on_demand_error_witness :
    ((NewKeylessRecordCacheOnDemand keylessCache.toCache mockFetcherError (10 * second)
      keylessWorld).1.Get
      (NewKeylessRecordCacheOnDemand keylessCache.toCache mockFetcherError (10 * second)
        keylessWorld).2).1 = ("", some "error") :=
  C22_keyless_on_demand_error keylessCache mockFetcherError "" "error" (10 * second)
    keylessWorld rfl rfl

/-- C23, as stated, fails: the origin returns the error `"error"`, and `Get()`
on the async keyless cache returns the no-fetcher error of `refreshItem`
instead of it. -/
theorem C23_counterexample :
    mockFetcherError.Fetch = ("", some "error") ∧
    (keylessCache.All keylessWorld.store).entries = [] ∧
    ((NewKeylessRecordCacheAsync keylessCache.toCache mockFetcherError (10 * second)
      keylessWorld).1.Get
      (NewKeylessRecordCacheAsync keylessCache.toCache mockFetcherError (10 * second)
        keylessWorld).2).1 =
      ("", some "value not in cache and on demand fetcher is not initalised") ∧
    ((NewKeylessRecordCacheAsync keylessCache.toCache mockFetcherError (10 * second)
      keylessWorld).1.Get
      (NewKeylessRecordCacheAsync keylessCache.toCache mockFetcherError (10 * second)
        keylessWorld).2).1.2 ≠ some "error" := by
  decide

/-- C23 (amended): for a keyless cache built by `NewKeylessRecordCacheAsync`
over an empty store with an origin whose `Fetch` returns error `e`, the
construction sweep invokes the origin once and drops its error, the store stays
empty, and `Get()` returns the zero value with the no-fetcher error of
`refreshItem`, whatever `e` is. -/
theorem C23_keyless_async_error_swallowed {V : Type} [Inhabited V] (m : MemoryCache)
    (f : KeylessFetcher V) (v0 : V) (e : Error) (ttl : Duration)
    (w : World (Heap Int (RecordCacheItem V)) Int)
    (hf : f.Fetch = (v0, some e)) (hempty : m.All w.store = ∅) :
    (NewKeylessRecordCacheAsync m.toCache f ttl w).2.fetches = w.fetches ++ [FetchCall.all] ∧
    (NewKeylessRecordCacheAsync m.toCache f ttl w).2.store = w.store ∧
    ((NewKeylessRecordCacheAsync m.toCache f ttl w).1.Get
      (NewKeylessRecordCacheAsync m.toCache f ttl w).2).1 =
      (default, some "value not in cache and on demand fetcher is not initalised") := by
  have hobj : w.store.obj m.c = ∅ := hempty
  have hfa : (newAsyncFetcher f).FetchAll = ((∅ : GoMap Int V).insert 0 v0, some e) := by
    unfold newAsyncFetcher
    rw [hf]
  unfold NewKeylessRecordCacheAsync KeylessRecordCache.Get
  rw [SetAsyncFetcher_new_error m.toCache (newAsyncFetcher f) _ e ttl w hfa]
  refine ⟨rfl, rfl, ?_⟩
  refine Get_absent_no_fetcher m _ 0 _ rfl rfl ?_
  show (w.store.obj m.c).lookup 0 = none
  rw [hobj]
  exact AList.lookup_empty 0

/-- C23 (amended) on the test `get error` of `TestNewKeylessRecordCacheAsync`. -/
theorem C23_keyless_async_error_swallowed_witness :
    ((NewKeylessRecordCacheAsync keylessCache.toCache mockFetcherError (10 * second)
      keylessWorld).1.Get
      (NewKeylessRecordCacheAsync keylessCache.toCache mockFetcherError (10 * second)
        keylessWorld).2).1 =
      ("", some "value not in cache and on demand fetcher is not initalised") :=
  (C23_keyless_async_error_swallowed keylessCache mockFetcherError "" "error" (10 * second)
    keylessWorld rfl rfl).2.2

/-! ## C24: a backend that does not keep the refreshed entry -/

/-- C24: for every engine with an on-demand strategy over an arbitrary storage
backend: if key `k` needs refreshing, the strategy succeeds with `v`, and `k`
is still absent when storage is read again after the `Set` of the refresh, then
`Get(k)` returns the zero value and the error `record not in cache`, and the
strategy has been invoked exactly once: the fetch is not retried. -/
theorem C24_Get_record_not_found {S K V : Type} [Inhabited V] (r : RecordCache S K V)
    (f : OnDemandFetcher K V) (k : K) (v : V) (w : World S K)
    (hod : r.onDemandFetcher = some f) (hneed : (r.needRefreshing k w).1 = true)
    (hv : f.FetchByKey k = (v, none))
    (habsent : (r.cache.Get
      (r.cache.Set w.store k { V := v, T := (r.needRefreshing k w).2.Now.1 }).2 k).2 = false) :
    (r.Get k w).1 = (default, some "record not in cache") ∧
    (r.Get k w).2.fetches = w.fetches ++ [FetchCall.byKey k] := by
  rw [needRefreshing_snd] at habsent
  simp only [World.Now] at habsent
  rw [Get_unfold, hneed, if_pos rfl, refreshItem_ok r f k v _ hod hv, needRefreshing_snd]
  simp only [habsent, Bool.false_eq_true, if_false, and_self]

/-- C24 on a backend that is out of reach: the fetch succeeds with 10, the
write is lost, and `Get` reports `record not in cache` after one fetch. -/
theorem C24_Get_record_not_found_witness :
    (unreachableEngine.Get "k" unreachableWorld).1 = (0, some "record not in cache") ∧
    (unreachableEngine.Get "k" unreachableWorld).2.fetches = [FetchCall.byKey "k"] :=
  C24_Get_record_not_found unreachableEngine onDemandFetcherMock "k" 10 unreachableWorld
    rfl (by decide) rfl (by decide)

/-! ## C25: `RedisCache.Delete` -/

/-- C25: for every key that encodes successfully, `RedisCache.Delete` returns
true whatever the client answers to `HDel`: the client is arbitrary here, so
this covers a field that was in the hash, one that was not, and a command that
fails with an error. -/
theorem C25_redis_Delete_true {R K : Type} (gobEncode : K → String × Option Error)
    (r : RedisCache R) (s : R) (key : K) (bytes : String)
    (henc : gobEncode key = (bytes, none)) :
    (RedisCache.Delete gobEncode r s key).1 = true := by
  unfold RedisCache.Delete
  rw [henc]
  rfl

/-- C25 on the tests `unsuccessful delete` and `key not in cache`: `HDel` fails,
or removes nothing, and the result is true. -/
theorem C25_redis_Delete_true_witness :
    (redisDeleteError.c.HDel () "test" "1").1.2 = some "error" ∧
    (RedisCache.Delete gobEncodeNat redisDeleteError () 1).1 = true ∧
    (redisDeleteMiss.c.HDel () "test" "2").1 = (0, none) ∧
    (RedisCache.Delete gobEncodeNat redisDeleteMiss () 2).1 = true :=
  ⟨rfl, C25_redis_Delete_true gobEncodeNat redisDeleteError () 1 "1" (by decide),
    rfl, C25_redis_Delete_true gobEncodeNat redisDeleteMiss () 2 "2" (by decide)⟩

/-! ## C27: a ttl of zero -/

theorem Duration.mul_neg_one_zero : Duration.mul (-1) 0 = 0 := by
  decide

/-- C27, as stated, fails: with `ttl = 0` an entry whose capture time equals the
clock reading is not stale. -/
theorem C27_counterexample :
    (⟨(), 110⟩ : RecordCacheItem Unit).T = (clockWorld 110).Now.1 ∧
    ((⟨(), 110⟩ : RecordCacheItem Unit).IsStale 0 (clockWorld 110)).1 = false := by
  decide

/-- C27 (amended): for every entry and every clock reading `now`, `IsStale(0)`
is true exactly when the capture time is strictly before `now`; an entry whose
capture time equals `now` is not stale. -/
theorem C27_IsStale_zero_ttl {V S K : Type} (rci : RecordCacheItem V) (w : World S K) :
    ((rci.IsStale 0 w).1 = true ↔ rci.T < w.Now.1) ∧
    (rci.T = w.Now.1 → (rci.IsStale 0 w).1 = false) := by
  rw [IsStale_fst, Duration.mul_neg_one_zero, decide_eq_true_eq, decide_eq_false_iff_not]
  have hz : w.clock w.ticks + 0 = w.clock w.ticks := Int.add_zero _
  rw [hz]
  exact ⟨Iff.rfl, fun h => h ▸ Int.lt_irrefl _⟩

/-- C27 (amended) on the stub: an entry captured an hour ago is stale under
ttl 0, one captured at the clock reading is not. -/
theorem C27_IsStale_zero_ttl_witness :
    ((⟨1, stubNow - hour⟩ : RecordCacheItem Int).IsStale 0 stubWorld).1 = true ∧
    ((⟨1, stubNow⟩ : RecordCacheItem Int).IsStale 0 stubWorld).1 = false :=
  ⟨(C27_IsStale_zero_ttl (⟨1, stubNow - hour⟩ : RecordCacheItem Int) stubWorld).1.mpr
      (by decide),
    (C27_IsStale_zero_ttl (⟨1, stubNow⟩ : RecordCacheItem Int) stubWorld).2 rfl⟩

/-! ## C28: no second bulk fetch within the ttl -/

theorem refreshCache_engine {S K V : Type} (r : RecordCache S K V) (w : World S K) :
    (r.refreshCache w).1.onDemandFetcher = r.onDemandFetcher ∧
    (r.refreshCache w).1.asyncFetcher = r.asyncFetcher ∧
    (r.refreshCache w).1.cache = r.cache ∧
    (r.refreshCache w).1.recordTtl = r.recordTtl ∧
    (r.refreshCache w).1.allTtl = r.allTtl := by
  rw [refreshCache_unfold]
  cases (r.refreshDue (if r.onDemandFetcher.isSome then r.removeStale w else w)).1
  · exact ⟨rfl, rfl, rfl, rfl, rfl⟩
  · exact ⟨rfl, rfl, rfl, rfl, rfl⟩

theorem refreshCache_lastUpdated_due {S K V : Type} (r : RecordCache S K V) (w : World S K)
    (hdue : (r.refreshDue (if r.onDemandFetcher.isSome then r.removeStale w else w)).1 = true) :
    (r.refreshCache w).1.lastUpdated =
      (r.refreshCache w).2.clock ((r.refreshCache w).2.ticks - 1) := by
  rw [refreshCache_unfold, hdue]
  simp only [if_true, World.Now, Nat.add_sub_cancel]

theorem not_lt_add_neg_of_le_add (t t2 c : Int) (h : t2 ≤ t + c) : ¬ t < t2 + -c := by
  omega

/-- C28: for every engine with `allTtl >= 0`, after a sweep in which the bulk
branch ran, whether the bulk fetch succeeded or failed, `lastUpdated` is the
time `t` of that sweep (its last clock reading, not the zero time), and a
later sweep whose clock reading `t2` satisfies `t <= t2 <= t + allTtl` does not
invoke the bulk strategy again: it invokes no strategy at all. -/
theorem C28_no_bulk_fetch_within_ttl {S K V : Type} (r : RecordCache S K V)
    (w w2 : World S K) (t : Time) (httl : 0 ≤ r.allTtl) (hr : isInt64 r.allTtl)
    (hdue : (r.refreshDue (if r.onDemandFetcher.isSome then r.removeStale w else w)).1 = true)
    (ht : t = (r.refreshCache w).2.clock ((r.refreshCache w).2.ticks - 1)) (hnz : t ≠ 0)
    (_hlo : t ≤ (if (r.refreshCache w).1.onDemandFetcher.isSome
      then (r.refreshCache w).1.removeStale w2 else w2).Now.1)
    (hwin : (if (r.refreshCache w).1.onDemandFetcher.isSome
      then (r.refreshCache w).1.removeStale w2 else w2).Now.1 ≤ t + r.allTtl) :
    (r.refreshCache w).1.lastUpdated = t ∧
    ((r.refreshCache w).1.refreshCache w2).2.fetches = w2.fetches := by
  have hlu : (r.refreshCache w).1.lastUpdated = t := by
    rw [ht]
    exact refreshCache_lastUpdated_due r w hdue
  have hall : (r.refreshCache w).1.allTtl = r.allTtl := (refreshCache_engine r w).2.2.2.2
  have hmul : Duration.mul (-1) r.allTtl = -r.allTtl :=
    Duration.mul_neg_one r.allTtl hr (ne_minInt64_of_nonneg r.allTtl httl)
  refine ⟨hlu, ?_⟩
  rw [refreshCache_fetches, refreshDue_fst, hlu, hall, hmul]
  have h0 : decide (t = 0) = false := decide_eq_false hnz
  have h1 : decide (t < (if (r.refreshCache w).1.onDemandFetcher.isSome
      then (r.refreshCache w).1.removeStale w2 else w2).clock
        (if (r.refreshCache w).1.onDemandFetcher.isSome
          then (r.refreshCache w).1.removeStale w2 else w2).ticks + -r.allTtl) = false :=
    decide_eq_false (not_lt_add_neg_of_le_add t _ r.allTtl hwin)
  rw [h0, h1]
  simp only [Bool.or_self, Bool.and_false, Bool.false_eq_true, if_false]

/-- C28 on the failing bulk engine: the first sweep is due and its fetch fails;
a second sweep at the same clock reading fetches nothing. -/
theorem C28_no_bulk_fetch_within_ttl_witness :
    (failingBulkEngine.refreshCache stubWorld).2.fetches = [FetchCall.all] ∧
    (failingBulkEngine.refreshCache stubWorld).1.lastUpdated = stubNow ∧
    ((failingBulkEngine.refreshCache stubWorld).1.refreshCache stubWorld).2.fetches = [] :=
  have h := C28_no_bulk_fetch_within_ttl failingBulkEngine stubWorld stubWorld stubNow
    (by decide) (by decide) (by decide) (by decide) (by decide) (by decide) (by decide)
  ⟨by decide, h.1, h.2⟩

/-! ## C29: what `Get` leaves alone -/

theorem ite_pair_snd {α β : Type} (c : Prop) [Decidable c] (a b : α) (x : β) :
    (if c then (a, x) else (b, x)).2 = x := by
  split <;> rfl

theorem Get_store {S K V : Type} [Inhabited V] (r : RecordCache S K V) (k : K) (w : World S K) :
    (r.Get k w).2.store = w.store ∨
    ∃ item, (r.Get k w).2.store = (r.cache.Set w.store k item).2 := by
  rw [Get_unfold]
  cases hneed : (r.needRefreshing k w).1
  · left
    simp only [Bool.false_eq_true, if_false]
    split <;> simp only [needRefreshing_snd]
  · simp only [if_true]
    cases hod : r.onDemandFetcher with
    | none =>
      left
      rw [refreshItem_none r k _ hod]
      simp only [needRefreshing_snd]
    | some f =>
      rcases hf : f.FetchByKey k with ⟨v, err⟩
      cases err with
      | some e =>
        left
        rw [refreshItem_error r f k v e _ hod hf]
        simp only [World.called, needRefreshing_snd]
      | none =>
        right
        rw [refreshItem_ok r f k v _ hod hf]
        have hs : (r.needRefreshing k w).2.store = w.store := by rw [needRefreshing_snd]
        refine ⟨{ V := v, T := (r.needRefreshing k w).2.clock (r.needRefreshing k w).2.ticks }, ?_⟩
        simp only [ite_pair_snd, hs]

/-- C29: for every engine state over the in-memory store and every pair of
distinct keys `k` and `k2`, `Get(k)` leaves the entry under `k2` as it was
(same presence, value and capture time), whether `Get(k)` hits, refreshes or
fails. `Get` takes the engine and returns only its result and the world: no
field of the engine (strategies, TTLs, `lastUpdated`, `cron`) is assigned by
`Get`, `needRefreshing` or `refreshItem`, and no scheduler is created. -/
theorem C29_Get_frames_other_keys {K V : Type} [DecidableEq K] [Inhabited V] (m : MemoryCache)
    (r : RecordCache (Heap K (RecordCacheItem V)) K V) (k k2 : K)
    (w : World (Heap K (RecordCacheItem V)) K) (hc : r.cache = m.toCache) (hne : k2 ≠ k) :
    (m.All (r.Get k w).2.store).lookup k2 = (m.All w.store).lookup k2 ∧
    m.Get (r.Get k w).2.store k2 = m.Get w.store k2 := by
  have hlk : (m.All (r.Get k w).2.store).lookup k2 = (m.All w.store).lookup k2 := by
    rcases Get_store r k w with h | ⟨item, h⟩
    · rw [h]
    · rw [h, hc]
      show ((m.Set w.store k item).2.obj m.c).lookup k2 = (w.store.obj m.c).lookup k2
      rw [Set_obj, AList.lookup_insert_ne hne]
  refine ⟨hlk, ?_⟩
  rw [MemoryCache.Get_of_lookup, MemoryCache.Get_of_lookup]
  have hlk2 : ((r.Get k w).2.store.obj m.c).lookup k2 = (w.store.obj m.c).lookup k2 := hlk
  rw [hlk2]

/-- C29 on the stub: `Get("stale1")` refreshes `stale1` and leaves `active1`
and `stale2` as they were. -/
theorem C29_Get_frames_other_keys_witness :
    ((stubEngine (some onDemandFetcherMock) none).Get "stale1" stubWorld).1 = (10, none) ∧
    (stubCache.All ((stubEngine (some onDemandFetcherMock) none).Get "stale1"
      stubWorld).2.store).lookup "stale2" = some ⟨2, stubNow - hour⟩ :=
  ⟨by decide,
    ((C29_Get_frames_other_keys stubCache (stubEngine (some onDemandFetcherMock) none) "stale1"
      "stale2" stubWorld rfl (by decide)).1).trans (by decide)⟩

end ElloCache
